import Mathlib

/-!
Verification development for the alchimia falling-sand simulation.

The C++ source is shallowly embedded as follows.

* `float` scalars become exact rationals (`ℚ`).  All arithmetic on them goes
  through the executable helpers `qadd`, `qsub`, `qmul`, `qdiv`, `qabs`,
  `qmax`, `qtrunc` defined below, which are proved equal to the corresponding
  Mathlib operations (`qadd_eq`, ...); they exist only so that concrete runs
  of the embedded program reduce inside the kernel.
* `glm::ivec2` becomes `ℤ × ℤ`, `glm::vec2` becomes the structure `vec2`,
  `glm::vec4` (colours) the structure `vec4`.  The C-style `float → int`
  conversion (truncation toward zero) is `qtrunc`.
* The randomness utilities (`random_unit`, `random_from_range`,
  `random_normal`, `coin_flip`) are modelled by an oracle stream
  `rng : ℕ → ℚ` together with an index: each call of a randomness utility
  reads the next sampled value from the stream and advances the index.
  Theorems quantify over all streams, so they hold for every possible
  sequence of samples the seeded generator can produce.
* The mutable `world` (dense pixel grid plus chunk flags) becomes a record
  of total functions from coordinates; in-place mutation becomes pointwise
  functional update, and each C++ loop becomes structural recursion (with a
  fuel parameter where the C++ loop is a `while`).
-/

namespace Alchimia

/-! ## Exact rational arithmetic helpers (kernel-reducible) -/

/-- Addition on `ℚ` via `mkRat`; equals `a + b` (see `qadd_eq`). -/
def qadd (a b : ℚ) : ℚ := mkRat (a.num * b.den + b.num * a.den) (a.den * b.den)

/-- Subtraction on `ℚ` via `mkRat`; equals `a - b` (see `qsub_eq`). -/
def qsub (a b : ℚ) : ℚ := mkRat (a.num * b.den - b.num * a.den) (a.den * b.den)

/-- Multiplication on `ℚ` via `mkRat`; equals `a * b` (see `qmul_eq`). -/
def qmul (a b : ℚ) : ℚ := mkRat (a.num * b.num) (a.den * b.den)

/-- The rational `n / d` built from two integers (`qmk n 0 = 0`). -/
def qmk (n d : ℤ) : ℚ := if d < 0 then mkRat (-n) d.natAbs else mkRat n d.natAbs

/-- Division on `ℚ`; equals `a / b` (see `qdiv_eq`), in particular division
by zero yields `0`. -/
def qdiv (a b : ℚ) : ℚ := qmk (a.num * (b.den : ℤ)) ((a.den : ℤ) * b.num)

/-- Absolute value on `ℚ`; equals `|a|` (see `qabs_eq`). -/
def qabs (a : ℚ) : ℚ := if a < 0 then -a else a

/-- `glm::max`; equals `max a b` (see `qmax_eq`). -/
def qmax (a b : ℚ) : ℚ := if a < b then b else a

/-- C-style truncation toward zero of a rational, as used by the implicit
`glm::vec2 → glm::ivec2` conversions in the source. -/
def qtrunc (q : ℚ) : ℤ := Int.tdiv q.num (q.den : ℤ)

/-- Integer sign of a rational, mirroring `sign(float)` from
`src/src/update.cpp`. -/
def qsign (f : ℚ) : ℤ := if f < 0 then -1 else if 0 < f then 1 else 0

/-! ## Vectors -/

/-- `glm::vec2` with exact rational components. -/
structure vec2 where
  x : ℚ
  y : ℚ
deriving DecidableEq, Repr

/-- `glm::vec4`, used for colours. -/
structure vec4 where
  r : ℚ
  g : ℚ
  b : ℚ
  a : ℚ
deriving DecidableEq, Repr

/-- Integer grid position (`glm::ivec2`). -/
abbrev ivec2 := ℤ × ℤ

/-- Componentwise sum of two `vec2`s. -/
def vadd (u v : vec2) : vec2 := ⟨qadd u.x v.x, qadd u.y v.y⟩

/-- Componentwise difference of two `vec2`s. -/
def vsub (u v : vec2) : vec2 := ⟨qsub u.x v.x, qsub u.y v.y⟩

/-- `glm::length2`: squared euclidean norm of a `vec2`. -/
def qlen2 (v : vec2) : ℚ := qadd (qmul v.x v.x) (qmul v.y v.y)

/-- Truncating `vec2 → ivec2` conversion (C cast semantics). -/
def vtrunc (v : vec2) : ivec2 := (qtrunc v.x, qtrunc v.y)

/-- Multiply every colour channel by a scalar (`colour *= 0.8f`). -/
def cscale (s : ℚ) (c : vec4) : vec4 := ⟨qmul s c.r, qmul s c.g, qmul s c.b, qmul s c.a⟩

/-- Componentwise sum of two colours. -/
def cadd (c d : vec4) : vec4 := ⟨qadd c.r d.r, qadd c.g d.g, qadd c.b d.b, qadd c.a d.a⟩

/-! ## Pixel data model (src/src/pixel.hpp) -/

/-- `pixel_phase` from src/src/pixel.hpp. -/
inductive pixel_phase where
  | solid
  | liquid
  | gas
deriving DecidableEq, Repr

/-- `pixel_type` from src/src/pixel.hpp: the closed enumeration of
materials. -/
inductive pixel_type where
  | none
  | sand
  | dirt
  | coal
  | water
  | lava
  | acid
  | rock
  | titanium
  | steam
  | fuse
  | ember
  | oil
  | gunpowder
  | methane
deriving DecidableEq, Repr

/-- The named bits of the `std::bitset<64>` flag set of a pixel
(`pixel_flags` in src/src/pixel.hpp); only the three named bits are ever
read or written by the engine. -/
structure pixel_flags where
  is_updated : Bool := false
  is_falling : Bool := false
  is_burning : Bool := false
deriving DecidableEq, Repr

/-- `pixel` from src/src/pixel.hpp. -/
structure pixel where
  type : pixel_type
  colour : vec4
  velocity : vec2 := ⟨0, 0⟩
  flags : pixel_flags := {}
deriving DecidableEq, Repr

/-- `pixel_properties` from src/src/pixel.hpp lines 42-66, with the struct
defaults written there (note `corrosion_resist` defaults to `0.8`).  The
extra field `can_move_diagonally` is the movement capability read by
src/src/update.cpp (true exactly for the movable solids); it is kept
separate from `is_movable` because the update code tests it separately. -/
structure pixel_properties where
  phase : pixel_phase := pixel_phase.solid
  is_movable : Bool := false
  can_move_diagonally : Bool := false
  gravity_factor : ℚ := 0
  inertial_resistance : ℚ := 0
  horizontal_transfer : ℚ := 0
  dispersion_rate : ℤ := 0
  can_boil_water : Bool := false
  corrosion_resist : ℚ := mkRat 8 10
  is_corrosion_source : Bool := false
  flammability : ℚ := 0
  put_out_surrounded : ℚ := 0
  put_out : ℚ := 0
  burn_out_chance : ℚ := 0
  is_burn_source : Bool := false
  is_ember_source : Bool := false
deriving DecidableEq, Repr

/-- Modelled from the spec: the material table.  The free function
`properties(pixel)` declared in src/src/pixel.hpp has no definition under
src/; src/src/pixel.cpp only contains an older member
`pixel::properties()` against an earlier property record.  This definition
keeps, per material, exactly the numeric fields written in
src/src/pixel.cpp lines 22-126 (`inertial_resistance`,
`horizontal_transfer`, `dispersion_rate`, `corrosion_resist`,
`flammability`), maps that file's `pixel_movement` onto `phase` /
`is_movable` / `can_move_diagonally`, and fills the fields absent from
src/src/pixel.cpp from the spec: `gravity_factor` per the §4.1 table
(solids and liquids 1, steam -0.2, immovables 0) and the behaviour flags
promoted from the old `affect_neighbour` closures per §9 (`lava`:
`can_boil_water`, `is_burn_source`; `acid`: `is_corrosion_source`).
Materials with no dedicated case (`fuse`, `ember`, `oil`, `gunpowder`,
`methane`) take the default-constructed record, as in the `default:` case
of src/src/pixel.cpp. -/
def properties : pixel_type → pixel_properties
  | pixel_type.none => { corrosion_resist := 1 }
  | pixel_type.sand =>
      { phase := pixel_phase.solid, is_movable := true, can_move_diagonally := true
        gravity_factor := 1
        inertial_resistance := mkRat 1 10, horizontal_transfer := mkRat 3 10
        corrosion_resist := mkRat 3 10 }
  | pixel_type.dirt =>
      { phase := pixel_phase.solid, is_movable := true, can_move_diagonally := true
        gravity_factor := 1
        inertial_resistance := mkRat 4 10, horizontal_transfer := mkRat 2 10
        corrosion_resist := mkRat 5 10 }
  | pixel_type.coal =>
      { phase := pixel_phase.solid, is_movable := true, can_move_diagonally := true
        gravity_factor := 1
        inertial_resistance := mkRat 95 100, horizontal_transfer := mkRat 1 10
        corrosion_resist := mkRat 8 10, flammability := mkRat 2 100 }
  | pixel_type.water =>
      { phase := pixel_phase.liquid, gravity_factor := 1
        dispersion_rate := 5, corrosion_resist := 1 }
  | pixel_type.lava =>
      { phase := pixel_phase.liquid, gravity_factor := 1
        dispersion_rate := 1, corrosion_resist := 1
        can_boil_water := true, is_burn_source := true }
  | pixel_type.acid =>
      { phase := pixel_phase.liquid, gravity_factor := 1
        dispersion_rate := 1, corrosion_resist := 1
        is_corrosion_source := true }
  | pixel_type.rock =>
      { phase := pixel_phase.solid, corrosion_resist := mkRat 95 100 }
  | pixel_type.titanium =>
      { phase := pixel_phase.solid, corrosion_resist := 1 }
  | pixel_type.steam =>
      { phase := pixel_phase.gas, gravity_factor := mkRat (-2) 10
        dispersion_rate := 9, corrosion_resist := 0 }
  | _ => {}

/-- `from_hex`: the colour `(hi/256, mid/256, lo/256, 1)` of a 24-bit hex
code, matching the background colour `(44/256, 58/256, 71/256, 1)` the
spec gives for `0x2C3A47`. -/
def from_hex (hi mid lo : ℤ) : vec4 := ⟨mkRat hi 256, mkRat mid 256, mkRat lo 256, 1⟩

/-- `pixel::air()` from src/src/pixel.cpp: type `none`, background colour
`0x2C3A47`, no noise, no flags. -/
def pixel.air : pixel := { type := pixel_type.none, colour := from_hex 0x2C 0x3A 0x47 }

/-- Modelled from the spec: `pixel::ember()` is declared in
src/src/pixel.hpp but src/src/pixel.cpp contains no definition and the
spec does not give its colour.  It is modelled with type `ember`, an
arbitrary fixed colour and no flags, consuming no random samples; no
theorem below depends on the colour chosen. -/
def pixel.ember_px : pixel := { type := pixel_type.ember, colour := ⟨1, mkRat 1 2, 0, 1⟩ }

/-- `light_noise()` from src/src/pixel.cpp: three `random_from_range(-0.04,
0.04)` samples and alpha `1`; under the oracle model it reads three stream
values. -/
def light_noise (rng : ℕ → ℚ) (k : ℕ) : vec4 × ℕ :=
  (⟨rng k, rng (k+1), rng (k+2), 1⟩, k + 3)

/-- `pixel::steam()` from src/src/pixel.cpp: base colour `0x9AECDB` plus
`light_noise()`, no flags. -/
def pixel.steam_px (rng : ℕ → ℚ) (k : ℕ) : pixel × ℕ :=
  let (noise, k1) := light_noise rng k
  ({ type := pixel_type.steam, colour := cadd (from_hex 0x9A 0xEC 0xDB) noise }, k1)

/-! ## World (src/src/world.hpp, src/src/world.cpp) -/

/-- `world_size` from src/src/world.hpp (256), also
`sand::config::num_pixels` in src/src/world.cpp. -/
def world_size : ℤ := 256

/-- `chunk_size` from src/src/world.hpp (16). -/
def chunk_size : ℤ := 16

/-- `chunk` from src/src/world.hpp: the two per-chunk booleans. -/
structure chunk where
  should_step : Bool := true
  should_step_next : Bool := true
deriving DecidableEq, Repr

/-- The world: the dense pixel grid and the chunk grid, as total functions
from coordinates.  `width`/`height` are the pixel-grid dimensions
(`d_width`/`d_height` of `pixel_world`, both `config::num_pixels` = 256 in
the program). -/
structure world where
  width : ℤ := world_size
  height : ℤ := world_size
  cells : ivec2 → pixel
  chunks : ivec2 → chunk

/-- Bounds check of a position against explicit grid dimensions. -/
def valid_dims (width height : ℤ) (p : ivec2) : Bool :=
  decide (0 ≤ p.1) && decide (p.1 < width) && decide (0 ≤ p.2) && decide (p.2 < height)

/-- `pixel_world::valid` from src/src/world.cpp lines 22-25. -/
def world.valid (w : world) (p : ivec2) : Bool :=
  valid_dims w.width w.height p

/-- Write one cell in place (reference assignment `pixels.at(p) = px`);
chunks are untouched. -/
def world.writeCell (w : world) (p : ivec2) (px : pixel) : world :=
  { w with cells := fun q => if q = p then px else w.cells q }

/-- Set `should_step_next` on one chunk. -/
def world.wakeChunkAt (w : world) (c : ivec2) : world :=
  { w with chunks := fun q => if q = c then { w.chunks q with should_step_next := true } else w.chunks q }

/-- One guarded boundary wake of `wake_chunk_with_pixel`: if the crossing
condition holds and the neighbouring chunk coordinate passes the
`pixels.valid` check (against the pixel-grid bounds, exactly as the source
does), wake it. -/
def wake_boundary (c : Prop) [Decidable c] (n : ivec2) (w : world) : world :=
  if c then (if w.valid n then w.wakeChunkAt n else w) else w

/-- `world::wake_chunk_with_pixel` from src/src/world.cpp lines 58-90.
The home chunk is `pixel / chunk_size` (C integer division, i.e. `tdiv`);
then the four boundary crossings are applied in source order (right, left,
down, up), each using C `%` (i.e. `tmod`). -/
def world.wake_chunk_with_pixel (w : world) (p : ivec2) : world :=
  let ch : ivec2 := (Int.tdiv p.1 chunk_size, Int.tdiv p.2 chunk_size)
  wake_boundary (p.2 ≠ 0 ∧ Int.tmod (p.2 - 1) chunk_size = 0) (ch.1, ch.2 - 1)
    (wake_boundary (p.2 ≠ world_size - 1 ∧ Int.tmod (p.2 + 1) chunk_size = 0) (ch.1, ch.2 + 1)
      (wake_boundary (p.1 ≠ 0 ∧ Int.tmod (p.1 - 1) chunk_size = 0) (ch.1 - 1, ch.2)
        (wake_boundary (p.1 ≠ world_size - 1 ∧ Int.tmod (p.1 + 1) chunk_size = 0) (ch.1 + 1, ch.2)
          (w.wakeChunkAt ch))))

/-- The chunks woken by one `wake_chunk_with_pixel(p)` call, as a decidable
indicator (see `wake_chunks_next`): the home chunk of `p` plus the guarded
boundary neighbours, with the same conditions as the source. -/
def wake_hits (width height : ℤ) (p q : ivec2) : Bool :=
  let ch : ivec2 := (Int.tdiv p.1 chunk_size, Int.tdiv p.2 chunk_size)
  decide (q = ch)
  || (decide (p.1 ≠ world_size - 1 ∧ Int.tmod (p.1 + 1) chunk_size = 0)
       && valid_dims width height (ch.1 + 1, ch.2) && decide (q = (ch.1 + 1, ch.2)))
  || (decide (p.1 ≠ 0 ∧ Int.tmod (p.1 - 1) chunk_size = 0)
       && valid_dims width height (ch.1 - 1, ch.2) && decide (q = (ch.1 - 1, ch.2)))
  || (decide (p.2 ≠ world_size - 1 ∧ Int.tmod (p.2 + 1) chunk_size = 0)
       && valid_dims width height (ch.1, ch.2 + 1) && decide (q = (ch.1, ch.2 + 1)))
  || (decide (p.2 ≠ 0 ∧ Int.tmod (p.2 - 1) chunk_size = 0)
       && valid_dims width height (ch.1, ch.2 - 1) && decide (q = (ch.1, ch.2 - 1)))

/-- Modelled from the spec: `world::set` is declared in src/src/world.hpp
but has no definition under src/; §4.2 specifies it as "write and wake the
containing chunk", so it is the cell write followed by
`wake_chunk_with_pixel`. -/
def world.set (w : world) (p : ivec2) (px : pixel) : world :=
  (w.writeCell p px).wake_chunk_with_pixel p

/-- `tile::swap` from src/src/tile.cpp lines 83-87: exchange the two cells
and return the right-hand position. -/
def world.swapCells (w : world) (a b : ivec2) : world × ivec2 :=
  let pa := w.cells a
  let pb := w.cells b
  ({ w with cells := fun q => if q = a then pb else if q = b then pa else w.cells q }, b)

/-- Set or clear the `is_falling` bit of the cell at `p`. -/
def world.setFlagFalling (w : world) (p : ivec2) (v : Bool) : world :=
  w.writeCell p { w.cells p with flags := { (w.cells p).flags with is_falling := v } }

/-- Set the `is_burning` bit of the cell at `p`. -/
def world.setFlagBurning (w : world) (p : ivec2) : world :=
  w.writeCell p { w.cells p with flags := { (w.cells p).flags with is_burning := true } }

/-! ## Randomness (oracle model) -/

/-- Modelled from the spec: the randomness utilities of utility.hpp are not
under src/.  `coin_flip()` is a fair coin; under the oracle model it reads
one stream value and is heads when that value is below one half (every
outcome is reachable, which is all the theorems below use). -/
def coin_flip (sample : ℚ) : Bool := decide (sample < mkRat 1 2)

/-! ## Update engine (src/src/update.cpp) -/

/-- `neighbour_offsets` from src/src/update.cpp lines 18-27, in source
order. -/
def neighbour_offsets : List ivec2 :=
  [(1,0), (-1,0), (0,1), (0,-1), (1,1), (-1,-1), (-1,1), (1,-1)]

/-- `can_pixel_move_to` from src/src/update.cpp lines 29-51. -/
def can_pixel_move_to (w : world) (src_pos dst_pos : ivec2) : Bool :=
  if !(w.valid src_pos) || !(w.valid dst_pos) then false
  else if (w.cells dst_pos).type = pixel_type.none then true
  else
    match (properties (w.cells src_pos).type).phase with
    | pixel_phase.solid =>
        decide ((properties (w.cells dst_pos).type).phase = pixel_phase.liquid)
        || decide ((properties (w.cells dst_pos).type).phase = pixel_phase.gas)
    | pixel_phase.liquid =>
        decide ((properties (w.cells dst_pos).type).phase = pixel_phase.gas)
    | pixel_phase.gas => false

/-- One iteration of the `for (const auto x : {l, r})` loop in
`set_adjacent_free_falling` (src/src/update.cpp lines 53-68).  Note the
source wakes the chunk of `l` (not of `x`) in both iterations, and wakes
it whenever `gravity_factor != 0`, before the inertial-resistance
sample. -/
def saff_one (w : world) (l x : ivec2) (rng : ℕ → ℚ) (k : ℕ) : world × ℕ :=
  if w.valid x then
    let props := properties (w.cells x).type
    if props.gravity_factor ≠ 0 then
      let w1 := w.wake_chunk_with_pixel l
      let w2 := if props.inertial_resistance < rng k then w1.setFlagFalling x true else w1
      (w2, k + 1)
    else (w, k)
  else (w, k)

/-- `set_adjacent_free_falling` from src/src/update.cpp lines 53-68. -/
def set_adjacent_free_falling (w : world) (pos : ivec2) (rng : ℕ → ℚ) (k : ℕ) : world × ℕ :=
  let l : ivec2 := (pos.1 - 1, pos.2)
  let r : ivec2 := (pos.1 + 1, pos.2)
  let s := saff_one w l l rng k
  saff_one s.1 l r rng s.2

/-- The stepping loop of `move_offset` (src/src/update.cpp lines 80-89):
`next = a + (b - a) * (i + 1) / steps` with C integer division. -/
def move_offset_go (a b : ivec2) (steps : ℤ) (rng : ℕ → ℚ) :
    List ℤ → world → ivec2 → ℕ → world × ivec2 × ℕ
  | [], w, pos, k => (w, pos, k)
  | i :: rest, w, pos, k =>
      let next : ivec2 := (a.1 + Int.tdiv ((b.1 - a.1) * (i + 1)) steps,
                           a.2 + Int.tdiv ((b.2 - a.2) * (i + 1)) steps)
      if can_pixel_move_to w pos next then
        let s := w.swapCells pos next
        let r := set_adjacent_free_falling s.1 s.2 rng k
        move_offset_go a b steps rng rest r.1 s.2 r.2
      else (w, pos, k)

/-- `move_offset` from src/src/update.cpp lines 72-98; returns the world,
the final position, whether the position changed, and the advanced stream
index. -/
def move_offset (w : world) (pos offset : ivec2) (rng : ℕ → ℚ) (k : ℕ) :
    world × ivec2 × Bool × ℕ :=
  let a := pos
  let b : ivec2 := (pos.1 + offset.1, pos.2 + offset.2)
  let steps : ℕ := max (a.1 - b.1).natAbs (a.2 - b.2).natAbs
  let idx : List ℤ := (List.range steps).map (fun n => (n : ℤ))
  match move_offset_go a b (steps : ℤ) rng idx w pos k with
  | (w1, pos1, k1) =>
      if pos1 ≠ pos then
        (((w1.setFlagFalling pos1 true).wake_chunk_with_pixel pos1), pos1, true, k1)
      else (w1, pos1, false, k1)

/-- `is_surrounded` from src/src/update.cpp lines 100-110: false iff some
in-bounds neighbour is empty. -/
def is_surrounded (w : world) (pos : ivec2) : Bool :=
  neighbour_offsets.all fun off =>
    if w.valid (pos.1 + off.1, pos.2 + off.2) then
      decide ((w.cells (pos.1 + off.1, pos.2 + off.2)).type ≠ pixel_type.none)
    else true

/-- The body of the `is_burning` block of `update_pixel_attributes`
(src/src/update.cpp lines 181-193), parametric in the property record as
the source body is: the put-out sample is drawn first (against
`put_out_surrounded` when surrounded, `put_out` otherwise), then the
burn-out sample is drawn and compared against `burn_out_chance`
unconditionally, replacing the cell with `air()` when it hits. -/
def attribute_update (props : pixel_properties) (surrounded : Bool) (px : pixel)
    (rng : ℕ → ℚ) (k : ℕ) : pixel × ℕ :=
  if px.flags.is_burning then
    let p_out := if surrounded then props.put_out_surrounded else props.put_out
    let px1 := if rng k < p_out then { px with flags := { px.flags with is_burning := false } } else px
    let px2 := if rng (k + 1) < props.burn_out_chance then pixel.air else px1
    (px2, k + 2)
  else (px, k)

/-- `update_pixel_attributes` from src/src/update.cpp lines 170-194: wake
the chunk of a burning pixel, then run the burning-state update. -/
def update_pixel_attributes (w : world) (pos : ivec2) (rng : ℕ → ℚ) (k : ℕ) : world × ℕ :=
  let px := w.cells pos
  let w1 := if px.flags.is_burning then w.wake_chunk_with_pixel pos else w
  if px.flags.is_burning then
    let r := attribute_update (properties px.type) (is_surrounded w1 pos) px rng k
    (w1.writeCell pos r.1, r.2)
  else (w1, k)

/-- One iteration of the neighbour loop of `affect_neighbours`
(src/src/update.cpp lines 196-241): boil, corrode, ignite, emit ember, in
source order, with all cell reads live and `props` fixed at entry. -/
def affect_one (props : pixel_properties) (pos np : ivec2) (w : world)
    (rng : ℕ → ℚ) (k : ℕ) : world × ℕ :=
  if w.valid np then
    let s1 : world × ℕ :=
      if props.can_boil_water ∧ (w.cells np).type = pixel_type.water then
        let st := pixel.steam_px rng k
        (w.writeCell np st.1, st.2)
      else (w, k)
    let s2 : world × ℕ :=
      if props.is_corrosion_source then
        if (properties (s1.1.cells np).type).corrosion_resist < rng s1.2 then
          let w2 := s1.1.writeCell np pixel.air
          if mkRat 9 10 < rng (s1.2 + 1) then (w2.writeCell pos pixel.air, s1.2 + 2)
          else (w2, s1.2 + 2)
        else (s1.1, s1.2 + 1)
      else s1
    let s3 : world × ℕ :=
      if props.is_burn_source ∨ (s2.1.cells pos).flags.is_burning then
        if rng s2.2 < (properties (s2.1.cells np).type).flammability then
          ((s2.1.setFlagBurning np).wake_chunk_with_pixel np, s2.2 + 1)
        else (s2.1, s2.2 + 1)
      else s2
    if (props.is_ember_source ∨ (s3.1.cells pos).flags.is_burning)
        ∧ (s3.1.cells np).type = pixel_type.none then
      if rng s3.2 < mkRat 1 100 then
        ((s3.1.writeCell np pixel.ember_px).wake_chunk_with_pixel np, s3.2 + 1)
      else (s3.1, s3.2 + 1)
    else s3
  else (w, k)

/-- The fold of `affect_one` over the eight neighbour offsets. -/
def affect_list (props : pixel_properties) (pos : ivec2) (rng : ℕ → ℚ) :
    List ivec2 → world → ℕ → world × ℕ
  | [], w, k => (w, k)
  | off :: rest, w, k =>
      let r := affect_one props pos (pos.1 + off.1, pos.2 + off.2) w rng k
      affect_list props pos rng rest r.1 r.2

/-- `affect_neighbours` from src/src/update.cpp lines 196-241. -/
def affect_neighbours (w : world) (pos : ivec2) (rng : ℕ → ℚ) (k : ℕ) : world × ℕ :=
  affect_list (properties (w.cells pos).type) pos rng neighbour_offsets w k

/-- Modelled from the spec: config.hpp is not under src/; §6 gives the
gravity constant `(0, 9.81)`. -/
def gravity : vec2 := ⟨0, mkRat 981 100⟩

/-- Modelled from the spec: config.hpp is not under src/; §6 gives the
fixed time step `1/60`. -/
def time_step : ℚ := mkRat 1 60

/-- Zero the vertical velocity of the cell at `p`
(`data.velocity.y = 0.0f`). -/
def zero_y_velocity (w : world) (p : ivec2) : world :=
  w.writeCell p { w.cells p with velocity := ⟨(w.cells p).velocity.x, 0⟩ }

/-- Try two movement offsets in order, stopping at the first success
(the `for (auto offset : offsets)` loops of `update_pixel_position`). -/
def try_offsets (w : world) (pos first second : ivec2) (rng : ℕ → ℚ) (k : ℕ) :
    world × ivec2 × Bool × ℕ :=
  match move_offset w pos first rng k with
  | (w1, pos1, true, k1) => (w1, pos1, true, k1)
  | (w1, pos1, false, k1) => move_offset w1 pos1 second rng k1

/-- Stage (d) of `update_pixel_position` (src/src/update.cpp lines
155-166): dispersion. -/
def position_dispersion (w : world) (pos : ivec2) (props : pixel_properties)
    (rng : ℕ → ℚ) (k : ℕ) : world × ivec2 × ℕ :=
  if props.dispersion_rate ≠ 0 then
    let w1 := zero_y_velocity w pos
    let dr := props.dispersion_rate
    let flip := coin_flip (rng k)
    let first : ivec2 := if flip then (dr, 0) else (-dr, 0)
    let second : ivec2 := if flip then (-dr, 0) else (dr, 0)
    match try_offsets w1 pos first second rng (k + 1) with
    | (w2, pos2, _, k2) => (w2, pos2, k2)
  else (w, pos, k)

/-- Stage (c) of `update_pixel_position` (src/src/update.cpp lines
143-153): diagonal movement, falling through to dispersion with the
vertical velocity zeroed when both offsets fail. -/
def position_diagonal (w : world) (pos : ivec2) (props : pixel_properties)
    (rng : ℕ → ℚ) (k : ℕ) : world × ivec2 × ℕ :=
  if props.can_move_diagonally then
    let dir := qsign props.gravity_factor
    let flip := coin_flip (rng k)
    let first : ivec2 := if flip then (1, dir) else (-1, dir)
    let second : ivec2 := if flip then (-1, dir) else (1, dir)
    match try_offsets w pos first second rng (k + 1) with
    | (w1, pos1, true, k1) => (w1, pos1, k1)
    | (w1, pos1, false, k1) => position_dispersion (zero_y_velocity w1 pos1) pos1 props rng k1
  else position_dispersion w pos props rng k

/-- Stage (b) of `update_pixel_position` (src/src/update.cpp lines
138-141): a resisting, non-falling pixel rests. -/
def position_rest_check (w : world) (pos : ivec2) (props : pixel_properties)
    (rng : ℕ → ℚ) (k : ℕ) : world × ivec2 × ℕ :=
  if props.inertial_resistance ≠ 0 ∧ (w.cells pos).flags.is_falling = false then (w, pos, k)
  else position_diagonal w pos props rng k

/-- `update_pixel_position` from src/src/update.cpp lines 119-167,
including the `scope_exit` that finally sets `is_falling` on the final
position to whether the position changed. -/
def update_pixel_position (w : world) (pos : ivec2) (rng : ℕ → ℚ) (k : ℕ) :
    world × ivec2 × ℕ :=
  let props := properties (w.cells pos).type
  let core : world × ivec2 × ℕ :=
    if props.gravity_factor ≠ 0 then
      let px := w.cells pos
      let v1 : vec2 := vadd px.velocity
        ⟨qmul props.gravity_factor (qmul gravity.x time_step),
         qmul props.gravity_factor (qmul gravity.y time_step)⟩
      let w0 := w.writeCell pos { px with velocity := v1 }
      match move_offset w0 pos (qtrunc v1.x, qtrunc v1.y) rng k with
      | (w1, pos1, true, k1) => (w1, pos1, k1)
      | (w1, pos1, false, k1) => position_rest_check w1 pos1 props rng k1
    else position_rest_check w pos props rng k
  match core with
  | (w1, pos1, k1) => (w1.setFlagFalling pos1 (decide (pos1 ≠ pos)), pos1, k1)

/-- `update_pixel` from src/src/update.cpp lines 245-257. -/
def update_pixel (w : world) (pos : ivec2) (rng : ℕ → ℚ) (k : ℕ) : world × ℕ :=
  if (w.cells pos).type = pixel_type.none ∨ (w.cells pos).flags.is_updated then (w, k)
  else
    match update_pixel_position w pos rng k with
    | (w1, pos1, k1) =>
        let r2 := update_pixel_attributes w1 pos1 rng k1
        let r3 := affect_neighbours r2.1 pos1 rng r2.2
        (r3.1.writeCell pos1 { r3.1.cells pos1 with
            flags := { (r3.1.cells pos1).flags with is_updated := true } }, r3.2)

/-! ## Step loop (src/src/tile.cpp) -/

/-- The cells of one row in iteration order: ascending `x` when the row's
coin flip is heads, descending otherwise (src/src/tile.cpp lines 41-54). -/
def row_cells (flip : Bool) (y : ℤ) : List ivec2 :=
  if flip then (List.range 256).map (fun n => ((n : ℤ), y))
  else (List.range 256).map (fun n => (255 - (n : ℤ), y))

/-- The `inner` loop body of `tile::simulate` folded over a list of cells:
skip already-updated cells, otherwise run `update_pixel`. -/
def simulate_cells (rng : ℕ → ℚ) : List ivec2 → world → ℕ → world × ℕ
  | [], w, k => (w, k)
  | p :: rest, w, k =>
      if (w.cells p).flags.is_updated then simulate_cells rng rest w k
      else
        let r := update_pixel w p rng k
        simulate_cells rng rest r.1 r.2

/-- The row loop of `tile::simulate`: one coin flip per row selects the
direction, then the row's cells are processed. -/
def simulate_rows (rng : ℕ → ℚ) : List ℤ → world → ℕ → world × ℕ
  | [], w, k => (w, k)
  | y :: rest, w, k =>
      let flip := coin_flip (rng k)
      let r := simulate_cells rng (row_cells flip y) w (k + 1)
      simulate_rows rng rest r.1 r.2

/-- Clear `is_updated` on every cell (the `for_each` at the end of
`tile::simulate`). -/
def clear_updated (w : world) : world :=
  { w with cells := fun p => { w.cells p with flags := { (w.cells p).flags with is_updated := false } } }

/-- `tile::simulate` from src/src/tile.cpp lines 33-60: rows from the
bottom (`y = 255`) to the top, a fair coin per row choosing the horizontal
direction, each not-yet-updated pixel updated once, then all `is_updated`
flags cleared.  (The colour copy into the render buffer is outside the
simulation state.) -/
def simulate (w : world) (rng : ℕ → ℚ) (k : ℕ) : world × ℕ :=
  let rows := (List.range 256).map (fun n => 255 - (n : ℤ))
  let r := simulate_rows rng rows w k
  (clear_updated r.1, r.2)

/-- `n` consecutive steps threading the world and the stream index. -/
def run_steps : ℕ → world → (ℕ → ℚ) → ℕ → world × ℕ
  | 0, w, _, k => (w, k)
  | n + 1, w, rng, k =>
      let r := simulate w rng k
      run_steps n r.1 rng r.2

/-! ## Explosion (src/src/explosion.hpp, src/src/explosion.cpp) -/

/-- `explosion` from src/src/explosion.hpp. -/
structure explosion where
  min_radius : ℚ
  max_radius : ℚ
  scorch : ℚ
deriving DecidableEq, Repr

/-- Exact decision of `lhs < (sqrt L + n)^2` for `L ≥ 0`, `n ≥ 0`, used to
express the scorch-phase comparison `length2(curr - start) <
scorch_limit^2` where `scorch_limit = length(curr0 - start) + n` involves
a square root: with `A = lhs - L - n^2`, the comparison holds iff `A < 0`
or `A^2 < 4 n^2 L` (see `lt_sqrt_add_sq_iff`). -/
def lt_sqrt_add_sq (lhs L n : ℚ) : Bool :=
  let A := qsub (qsub lhs L) (qmul n n)
  if A < 0 then true else decide (qmul A A < qmul 4 (qmul (qmul n n) L))

/-- The destruction loop of `explosion_ray` (src/src/explosion.cpp lines
25-32): while the truncated walk position is in bounds and within the
blast radius, stop at titanium, otherwise overwrite with ember (prob 5%)
or air and advance.  `fuel` bounds the iteration count of the C++ `while`;
every theorem below holds for every fuel. -/
def explosion_ray_destruct (start stepv : vec2) (blast2 : ℚ) (rng : ℕ → ℚ) :
    ℕ → world → vec2 → ℕ → world × vec2 × ℕ
  | 0, w, curr, k => (w, curr, k)
  | Nat.succ fuel, w, curr, k =>
      if w.valid (vtrunc curr) = true ∧ qlen2 (vsub curr start) < blast2 then
        if (w.cells (vtrunc curr)).type = pixel_type.titanium then (w, curr, k)
        else
          let px := if rng k < mkRat 5 100 then pixel.ember_px else pixel.air
          explosion_ray_destruct start stepv blast2 rng fuel
            (w.set (vtrunc curr) px) (vadd curr stepv) (k + 1)
      else (w, curr, k)

/-- The scorch loop of `explosion_ray` (src/src/explosion.cpp lines
34-40): while in bounds and within the scorch limit, darken solid cells
(`colour *= 0.8f`) and advance.  `L` is the squared distance of the
destruction stop point from `start` and `n` the absolute normal sample, so
the C++ condition `length2(curr - start) < scorch_limit^2` is
`lt_sqrt_add_sq`. -/
def explosion_ray_scorch (start stepv : vec2) (L n : ℚ) :
    ℕ → world → vec2 → world × vec2
  | 0, w, curr => (w, curr)
  | Nat.succ fuel, w, curr =>
      if w.valid (vtrunc curr) = true ∧ lt_sqrt_add_sq (qlen2 (vsub curr start)) L n = true then
        let p := vtrunc curr
        let w1 :=
          if (properties (w.cells p).type).phase = pixel_phase.solid then
            w.writeCell p { w.cells p with colour := cscale (mkRat 8 10) (w.cells p).colour }
          else w
        explosion_ray_scorch start stepv L n fuel w1 (vadd curr stepv)
      else (w, curr)

/-- `explosion_ray` from src/src/explosion.cpp lines 11-41: the step vector
is the line divided by the larger coordinate span, the blast limit is one
`random_from_range(min_radius, max_radius)` sample, the scorch limit adds
`|random_normal(0, scorch)|` to the distance reached. -/
def explosion_ray (w : world) (start endv : vec2) (info : explosion) (rng : ℕ → ℚ)
    (k : ℕ) (fuel : ℕ) : world × ℕ :=
  let line := vsub endv start
  let m := qmax (qabs line.x) (qabs line.y)
  let stepv : vec2 := ⟨qdiv line.x m, qdiv line.y m⟩
  let blast := rng k
  let d := explosion_ray_destruct start stepv (qmul blast blast) rng fuel w start (k + 1)
  let n := qabs (rng d.2.2)
  let L := qlen2 (vsub d.2.1 start)
  ((explosion_ray_scorch start stepv L n fuel d.1 d.2.1).1, d.2.2 + 1)

/-- The ray indices `-boundary .. boundary` of `apply_explosion`.  The C++
loop `for (int i = -boundary; i != boundary + 1; ++i)` only terminates
when `boundary` is a non-negative integer (the loop condition compares
`int` against `float`); in the degenerate cases the model takes no rays. -/
def ray_indices (boundary : ℚ) : List ℤ :=
  if boundary.den = 1 ∧ 0 ≤ boundary.num then
    (List.range (2 * boundary.num.toNat + 1)).map (fun n => (n : ℤ) - boundary.num)
  else []

/-- The four rays cast for one index `i` (src/src/explosion.cpp lines
48-51, in source order). -/
def ray4 (pos : vec2) (boundary : ℚ) (info : explosion) (rng : ℕ → ℚ) (fuel : ℕ)
    (i : ℤ) (w : world) (k : ℕ) : world × ℕ :=
  let r1 := explosion_ray w pos (vadd pos ⟨mkRat i 1, boundary⟩) info rng k fuel
  let r2 := explosion_ray r1.1 pos (vadd pos ⟨mkRat i 1, -boundary⟩) info rng r1.2 fuel
  let r3 := explosion_ray r2.1 pos (vadd pos ⟨boundary, mkRat i 1⟩) info rng r2.2 fuel
  explosion_ray r3.1 pos (vadd pos ⟨-boundary, mkRat i 1⟩) info rng r3.2 fuel

/-- The fold of `ray4` over the ray indices. -/
def apply_list (pos : vec2) (boundary : ℚ) (info : explosion) (rng : ℕ → ℚ) (fuel : ℕ) :
    List ℤ → world → ℕ → world × ℕ
  | [], w, k => (w, k)
  | i :: rest, w, k =>
      let r := ray4 pos boundary info rng fuel i w k
      apply_list pos boundary info rng fuel rest r.1 r.2

/-- `apply_explosion` from src/src/explosion.cpp lines 43-53: `boundary =
max_radius + 3 * scorch`, four rays per index. -/
def apply_explosion (w : world) (pos : vec2) (info : explosion) (rng : ℕ → ℚ)
    (k : ℕ) (fuel : ℕ) : world × ℕ :=
  let boundary := qadd info.max_radius (qmul 3 info.scorch)
  apply_list pos boundary info rng fuel (ray_indices boundary) w k

/-! ## Binary serialisation (modelled from the spec) -/

/-- Modelled from the spec: the binary codec (serialise.hpp) is not under
src/; §6 specifies a tightly packed little-endian cell record of `type`
(u8), four colour floats, two velocity floats and a u64 flag word.  Floats
are serialised as raw 32-bit patterns, so a cell is modelled by its bit
patterns: this record is the serialisation-level view of one pixel. -/
structure spixel where
  ptype : Fin 256
  cr : Fin (2 ^ 32)
  cg : Fin (2 ^ 32)
  cb : Fin (2 ^ 32)
  ca : Fin (2 ^ 32)
  vx : Fin (2 ^ 32)
  vy : Fin (2 ^ 32)
  flagbits : Fin (2 ^ 64)
deriving DecidableEq, Repr

/-- Little-endian byte list (length `c`) of a machine word. -/
def word_bytes : ℕ → ℕ → List ℕ
  | 0, _ => []
  | Nat.succ c, v => v % 256 :: word_bytes c (v / 256)

/-- Read back a little-endian word of `c` bytes. -/
def read_word : ℕ → List ℕ → Option (ℕ × List ℕ)
  | 0, bs => some (0, bs)
  | Nat.succ _, [] => Option.none
  | Nat.succ c, b :: bs =>
      match read_word c bs with
      | some (v, rest) => some (b + 256 * v, rest)
      | Option.none => Option.none

/-- Serialise one cell: 1 type byte, 4 colour words, 2 velocity words, one
64-bit flag word (33 bytes; the spec's §6 table counts the type field as 4
bytes in its total, but names it `u8`, which is what is modelled). -/
def serialise_pixel (p : spixel) : List ℕ :=
  p.ptype.val :: (word_bytes 4 p.cr.val ++ word_bytes 4 p.cg.val ++ word_bytes 4 p.cb.val
    ++ word_bytes 4 p.ca.val ++ word_bytes 4 p.vx.val ++ word_bytes 4 p.vy.val
    ++ word_bytes 8 p.flagbits.val)

/-- Serialise a cell array. -/
def serialise : List spixel → List ℕ
  | [] => []
  | p :: rest => serialise_pixel p ++ serialise rest

/-- Parse one cell. -/
def deserialise_pixel (bs : List ℕ) : Option (spixel × List ℕ) :=
  match bs with
  | [] => Option.none
  | t :: bs0 =>
      (read_word 4 bs0).bind fun r1 =>
      (read_word 4 r1.2).bind fun r2 =>
      (read_word 4 r2.2).bind fun r3 =>
      (read_word 4 r3.2).bind fun r4 =>
      (read_word 4 r4.2).bind fun r5 =>
      (read_word 4 r5.2).bind fun r6 =>
      (read_word 8 r6.2).bind fun r7 =>
      some ({ ptype := ⟨t % 256, Nat.mod_lt _ (by decide)⟩
              cr := ⟨r1.1 % 2 ^ 32, Nat.mod_lt _ (by decide)⟩
              cg := ⟨r2.1 % 2 ^ 32, Nat.mod_lt _ (by decide)⟩
              cb := ⟨r3.1 % 2 ^ 32, Nat.mod_lt _ (by decide)⟩
              ca := ⟨r4.1 % 2 ^ 32, Nat.mod_lt _ (by decide)⟩
              vx := ⟨r5.1 % 2 ^ 32, Nat.mod_lt _ (by decide)⟩
              vy := ⟨r6.1 % 2 ^ 32, Nat.mod_lt _ (by decide)⟩
              flagbits := ⟨r7.1 % 2 ^ 64, Nat.mod_lt _ (by decide)⟩ }, r7.2)

/-- Parse a cell array with fuel (one unit per cell suffices); fails on
truncated input or trailing bytes, as §7 requires for `LoadFormat`. -/
def deserialise_go : ℕ → List ℕ → Option (List spixel)
  | _, [] => some []
  | 0, _ :: _ => Option.none
  | Nat.succ fuel, bs@(_ :: _) =>
      match deserialise_pixel bs with
      | Option.none => Option.none
      | some (p, rest) =>
          match deserialise_go fuel rest with
          | Option.none => Option.none
          | some ps => some (p :: ps)

/-- Parse a serialised cell array. -/
def deserialise (bs : List ℕ) : Option (List spixel) := deserialise_go bs.length bs

/-! ## Concrete inputs for witnesses and counterexamples -/

/-- A pixel of a given type with a fixed bright colour and no flags. -/
def plain_px (t : pixel_type) : pixel := { type := t, colour := ⟨1, 1, 1, 1⟩ }

/-- The all-air world with all chunks asleep. -/
def air_world : world :=
  { cells := fun _ => pixel.air, chunks := fun _ => ⟨false, false⟩ }

/-- World for the C1 witness: water at `(0,0)`, sand at `(1,0)`. -/
def w_c1 : world :=
  { cells := fun p => if p = ((0 : ℤ), (0 : ℤ)) then plain_px pixel_type.water
      else if p = ((1 : ℤ), (0 : ℤ)) then plain_px pixel_type.sand else pixel.air
    chunks := fun _ => ⟨false, false⟩ }

/-- World for the C2 theorems: a 1-cell-wide, 3-cell-high world with
titanium at `(0,1)` and rock at `(0,2)`. -/
def w_c2 : world :=
  { width := 1, height := 3
    cells := fun p => if p = ((0 : ℤ), (1 : ℤ)) then plain_px pixel_type.titanium
      else if p = ((0 : ℤ), (2 : ℤ)) then plain_px pixel_type.rock else pixel.air
    chunks := fun _ => ⟨false, false⟩ }

/-- Explosion parameters for the C2 counterexample: blast radius exactly 1,
scorch deviation `1/3` (so `boundary = 2`). -/
def info_c2 : explosion := { min_radius := 1, max_radius := 1, scorch := mkRat 1 3 }

/-- Sample stream for the C2 counterexample.  With `info_c2` every ray
destroys exactly the centre cell and consumes exactly three samples, so
the call positions are periodic: position `3j` is the
`random_from_range(1, 1)` blast sample (necessarily `1`), position
`3j + 1` a `random_unit()` sample (`1/2 ∈ [0,1)`, so the cell becomes
air), position `3j + 2` a `random_normal(0, 1/3)` sample (`5`, in the
support of the normal distribution).  Every value is realizable for the
distribution sampled at its position. -/
def rng_c2 : ℕ → ℚ :=
  fun k => if k % 3 = 0 then 1 else if k % 3 = 1 then mkRat 1 2 else 5

/-- World for the C8 counterexample: sand at `(16,0)` (the right neighbour
of position `(15,0)`, in chunk `(1,0)`), everything else air, all chunks
asleep. -/
def w_c8 : world :=
  { cells := fun p => if p = ((16 : ℤ), (0 : ℤ)) then plain_px pixel_type.sand else pixel.air
    chunks := fun _ => ⟨false, false⟩ }

/-- Property record for the C4 counterexample: certain put-out, certain
burn-out (the `pixel_properties` record of src/src/pixel.hpp admits these
values; the materials whose fire parameters are positive are exactly the
ones whose records are absent from src/). -/
def props_c4 : pixel_properties := { put_out := 1, burn_out_chance := 1 }

/-- A burning coal pixel for the C4 theorems. -/
def burning_px : pixel :=
  { type := pixel_type.coal, colour := ⟨1, 1, 1, 1⟩, flags := { is_burning := true } }

/-! ## Bridging lemmas: the executable arithmetic agrees with `ℚ` -/

theorem qadd_eq (a b : ℚ) : qadd a b = a + b := by
  have ha : ((a.den : ℚ)) ≠ 0 := by positivity
  have hb : ((b.den : ℚ)) ≠ 0 := by positivity
  rw [qadd, Rat.mkRat_eq_div]
  push_cast
  conv_rhs => rw [← Rat.num_div_den a, ← Rat.num_div_den b]
  rw [div_add_div _ _ ha hb]
  ring_nf

theorem qsub_eq (a b : ℚ) : qsub a b = a - b := by
  have ha : ((a.den : ℚ)) ≠ 0 := by positivity
  have hb : ((b.den : ℚ)) ≠ 0 := by positivity
  rw [qsub, Rat.mkRat_eq_div]
  push_cast
  conv_rhs => rw [← Rat.num_div_den a, ← Rat.num_div_den b]
  rw [div_sub_div _ _ ha hb]
  ring_nf

theorem qmul_eq (a b : ℚ) : qmul a b = a * b := by
  rw [qmul, Rat.mkRat_eq_div]
  push_cast
  conv_rhs => rw [← Rat.num_div_den a, ← Rat.num_div_den b]
  rw [div_mul_div_comm]

theorem qmk_eq (n d : ℤ) : qmk n d = (n : ℚ) / (d : ℚ) := by
  rcases lt_or_le d 0 with hd | hd
  · rw [qmk, if_pos hd, Rat.mkRat_eq_div]
    have h1 : ((d.natAbs : ℚ)) = -(d : ℚ) := by
      rw [Int.cast_natAbs, abs_of_neg hd]
      push_cast
      ring
    rw [h1, div_neg]
    push_cast
    rw [neg_div, neg_neg]
  · rw [qmk, if_neg (not_lt.mpr hd), Rat.mkRat_eq_div]
    have h1 : ((d.natAbs : ℚ)) = (d : ℚ) := by
      rw [Int.cast_natAbs, abs_of_nonneg hd]
    rw [h1]

theorem qdiv_eq (a b : ℚ) : qdiv a b = a / b := by
  rw [qdiv, qmk_eq]
  push_cast
  conv_rhs => rw [← Rat.num_div_den a, ← Rat.num_div_den b]
  rw [div_div_eq_mul_div, div_mul_eq_mul_div, div_div]

theorem qabs_eq (a : ℚ) : qabs a = |a| := by
  rw [qabs]
  rcases lt_or_le a 0 with h | h
  · rw [if_pos h, abs_of_neg h]
  · rw [if_neg (not_lt.mpr h), abs_of_nonneg h]

theorem qmax_eq (a b : ℚ) : qmax a b = max a b := by
  rw [qmax, max_def]
  rcases lt_trichotomy a b with h | h | h
  · rw [if_pos h, if_pos h.le]
  · subst h
    rw [if_neg (lt_irrefl a), if_pos le_rfl]
  · rw [if_neg (not_lt.mpr h.le), if_neg (not_le.mpr h)]

theorem qtrunc_eq (q : ℚ) : qtrunc q = if 0 ≤ q then ⌊q⌋ else ⌈q⌉ := by
  rcases le_or_lt 0 q with hq | hq
  · rw [qtrunc, if_pos hq, Rat.floor_def]
    exact Int.tdiv_eq_ediv (Rat.num_nonneg.mpr hq) (by positivity)
  · rw [qtrunc, if_neg (not_le.mpr hq)]
    have h1 : Int.tdiv q.num (q.den : ℤ) = -Int.tdiv (-q).num ((-q).den : ℤ) := by
      rw [Rat.neg_num, Rat.neg_den, Int.neg_tdiv, neg_neg]
    rw [h1, Int.tdiv_eq_ediv (Rat.num_nonneg.mpr (by linarith)) (by positivity),
      ← Rat.floor_def, Int.floor_neg]
    simp

theorem qtrunc_mono {a b : ℚ} (h : a ≤ b) : qtrunc a ≤ qtrunc b := by
  rw [qtrunc_eq, qtrunc_eq]
  rcases le_or_lt 0 a with ha | ha
  · rw [if_pos ha, if_pos (le_trans ha h)]
    exact Int.floor_le_floor h
  · rcases le_or_lt 0 b with hb | hb
    · rw [if_neg (not_le.mpr ha), if_pos hb]
      calc ⌈a⌉ ≤ ⌈(0 : ℚ)⌉ := Int.ceil_le_ceil ha.le
        _ = 0 := by simp
        _ ≤ ⌊b⌋ := Int.le_floor.mpr (by exact_mod_cast hb)
    · rw [if_neg (not_le.mpr ha), if_neg (not_le.mpr hb)]
      exact Int.ceil_le_ceil h

theorem qtrunc_add_one_le (a : ℚ) : qtrunc (a + 1) ≤ qtrunc a + 1 := by
  rw [qtrunc_eq, qtrunc_eq]
  rcases le_or_lt 0 a with ha | ha
  · rw [if_pos ha, if_pos (by linarith)]
    rw [show a + 1 = a + (1 : ℤ) by push_cast; ring, Int.floor_add_int]
  · rcases le_or_lt 0 (a + 1) with hb | hb
    · rw [if_pos hb, if_neg (not_le.mpr ha)]
      calc ⌊a + 1⌋ = ⌊a⌋ + 1 := by
            rw [show a + 1 = a + (1 : ℤ) by push_cast; ring, Int.floor_add_int]
        _ ≤ ⌈a⌉ + 1 := by have := Int.floor_le_ceil a; omega
    · rw [if_neg (not_le.mpr hb), if_neg (not_le.mpr ha)]
      rw [show a + 1 = a + (1 : ℤ) by push_cast; ring, Int.ceil_add_int]

/-- Truncation moves up by at most one cell per walk step of height at most
one. -/
theorem qtrunc_step_le {s : ℚ} (hs : s ≤ 1) (a : ℚ) :
    qtrunc (qadd a s) ≤ qtrunc a + 1 := by
  rw [qadd_eq]
  calc qtrunc (a + s) ≤ qtrunc (a + 1) := qtrunc_mono (by linarith)
    _ ≤ qtrunc a + 1 := qtrunc_add_one_le a

/-- The step vector of a ray never climbs more than one cell per step. -/
theorem qdiv_step_le_one (x y : ℚ) : qdiv y (qmax (qabs x) (qabs y)) ≤ 1 := by
  rw [qdiv_eq, qmax_eq, qabs_eq, qabs_eq]
  rcases eq_or_lt_of_le ((abs_nonneg y).trans (le_max_right |x| |y|)) with h0 | h0
  · rw [← h0, div_zero]
    norm_num
  · rw [div_le_one h0]
    exact (le_abs_self y).trans (le_max_right _ _)

theorem qtrunc_sub_one_ge (a : ℚ) : qtrunc a - 1 ≤ qtrunc (a - 1) := by
  have h := qtrunc_add_one_le (a - 1)
  have h2 : a - 1 + 1 = a := by ring
  rw [h2] at h
  omega

/-- Truncation moves down by at most one cell per walk step of height at
least minus one. -/
theorem qtrunc_step_ge {s : ℚ} (hs : -1 ≤ s) (a : ℚ) :
    qtrunc a - 1 ≤ qtrunc (qadd a s) := by
  rw [qadd_eq]
  calc qtrunc a - 1 ≤ qtrunc (a - 1) := qtrunc_sub_one_ge a
    _ ≤ qtrunc (a + s) := qtrunc_mono (by linarith)

/-- The step vector of a ray never descends more than one cell per step. -/
theorem qdiv_step_ge_neg_one (x y : ℚ) : -1 ≤ qdiv y (qmax (qabs x) (qabs y)) := by
  rw [qdiv_eq, qmax_eq, qabs_eq, qabs_eq]
  rcases eq_or_lt_of_le ((abs_nonneg y).trans (le_max_right |x| |y|)) with h0 | h0
  · rw [← h0, div_zero]
    norm_num
  · rw [le_div_iff h0]
    have h1 : -|y| ≤ y := neg_abs_le y
    have h2 : |y| ≤ max |x| |y| := le_max_right _ _
    linarith

/-! ## Structural lemmas about world operations -/

theorem writeCell_cells (w : world) (p : ivec2) (px : pixel) (q : ivec2) :
    (w.writeCell p px).cells q = if q = p then px else w.cells q := rfl

theorem writeCell_chunks (w : world) (p : ivec2) (px : pixel) :
    (w.writeCell p px).chunks = w.chunks := rfl

theorem writeCell_width (w : world) (p : ivec2) (px : pixel) :
    (w.writeCell p px).width = w.width := rfl

theorem writeCell_height (w : world) (p : ivec2) (px : pixel) :
    (w.writeCell p px).height = w.height := rfl

theorem wakeChunkAt_cells (w : world) (c : ivec2) : (w.wakeChunkAt c).cells = w.cells := rfl

theorem wakeChunkAt_width (w : world) (c : ivec2) : (w.wakeChunkAt c).width = w.width := rfl

theorem wakeChunkAt_height (w : world) (c : ivec2) : (w.wakeChunkAt c).height = w.height := rfl

theorem wakeChunkAt_valid (w : world) (c : ivec2) : (w.wakeChunkAt c).valid = w.valid := rfl

theorem wakeChunkAt_chunks (w : world) (c q : ivec2) :
    (w.wakeChunkAt c).chunks q
      = if q = c then { w.chunks q with should_step_next := true } else w.chunks q := rfl

theorem wakeChunkAt_chunks_next (w : world) (c q : ivec2) :
    ((w.wakeChunkAt c).chunks q).should_step_next
      = ((w.chunks q).should_step_next || decide (q = c)) := by
  rw [wakeChunkAt_chunks]
  by_cases h : q = c
  · simp [h]
  · simp [h]

theorem wakeChunkAt_chunks_step (w : world) (c q : ivec2) :
    ((w.wakeChunkAt c).chunks q).should_step = (w.chunks q).should_step := by
  rw [wakeChunkAt_chunks]
  by_cases h : q = c
  · simp [h]
  · simp [h]

theorem wake_boundary_cells (c : Prop) [Decidable c] (n : ivec2) (w : world) :
    (wake_boundary c n w).cells = w.cells := by
  unfold wake_boundary
  split_ifs <;> rfl

theorem wake_boundary_width (c : Prop) [Decidable c] (n : ivec2) (w : world) :
    (wake_boundary c n w).width = w.width := by
  unfold wake_boundary
  split_ifs <;> rfl

theorem wake_boundary_height (c : Prop) [Decidable c] (n : ivec2) (w : world) :
    (wake_boundary c n w).height = w.height := by
  unfold wake_boundary
  split_ifs <;> rfl

theorem wake_boundary_valid (c : Prop) [Decidable c] (n : ivec2) (w : world) :
    (wake_boundary c n w).valid = w.valid := by
  unfold wake_boundary
  split_ifs <;> rfl

theorem wake_boundary_chunks_step (c : Prop) [Decidable c] (n : ivec2) (w : world) (q : ivec2) :
    ((wake_boundary c n w).chunks q).should_step = (w.chunks q).should_step := by
  unfold wake_boundary
  split_ifs <;> simp [wakeChunkAt_chunks_step]

theorem wake_boundary_chunks_next (c : Prop) [Decidable c] (n : ivec2) (w : world) (q : ivec2) :
    ((wake_boundary c n w).chunks q).should_step_next
      = ((w.chunks q).should_step_next
          || (decide c && valid_dims w.width w.height n && decide (q = n))) := by
  unfold wake_boundary
  split_ifs with h1 h2
  · rw [wakeChunkAt_chunks_next]
    rw [world.valid] at h2
    simp [h1, h2]
  · have hv : w.valid n = false := by
      rw [← Bool.not_eq_true]
      exact h2
    rw [world.valid] at hv
    simp [h1, hv]
  · simp [h1]

theorem wake_cells (w : world) (p : ivec2) :
    (w.wake_chunk_with_pixel p).cells = w.cells := by
  simp only [world.wake_chunk_with_pixel, wake_boundary_cells, wakeChunkAt_cells]

theorem wake_width (w : world) (p : ivec2) :
    (w.wake_chunk_with_pixel p).width = w.width := by
  simp only [world.wake_chunk_with_pixel, wake_boundary_width, wakeChunkAt_width]

theorem wake_height (w : world) (p : ivec2) :
    (w.wake_chunk_with_pixel p).height = w.height := by
  simp only [world.wake_chunk_with_pixel, wake_boundary_height, wakeChunkAt_height]

theorem wake_valid (w : world) (p : ivec2) :
    (w.wake_chunk_with_pixel p).valid = w.valid := by
  simp only [world.wake_chunk_with_pixel, wake_boundary_valid, wakeChunkAt_valid]

theorem wake_chunks_step (w : world) (p q : ivec2) :
    ((w.wake_chunk_with_pixel p).chunks q).should_step = (w.chunks q).should_step := by
  simp only [world.wake_chunk_with_pixel, wake_boundary_chunks_step, wakeChunkAt_chunks_step]

theorem wake_chunks_next (w : world) (p q : ivec2) :
    ((w.wake_chunk_with_pixel p).chunks q).should_step_next
      = ((w.chunks q).should_step_next || wake_hits w.width w.height p q) := by
  simp only [world.wake_chunk_with_pixel, wake_hits, wake_boundary_chunks_next,
    wake_boundary_width, wake_boundary_height, wakeChunkAt_chunks_next,
    wakeChunkAt_width, wakeChunkAt_height]
  simp [Bool.or_assoc]

/-! ## C1: the phase table of `can_pixel_move_to` -/

/-- C1: for every world and in-bounds source and destination positions,
`can_pixel_move_to` permits the move exactly as the phase table states:
always when the destination is empty, otherwise a solid source may enter a
liquid or gas destination, a liquid source only a gas destination, a gas
source never, and a solid destination is never entered. -/
theorem C1_can_move_iff (w : world) (src dst : ivec2)
    (hs : w.valid src = true) (hd : w.valid dst = true) :
    can_pixel_move_to w src dst = true ↔
      ((w.cells dst).type = pixel_type.none
        ∨ ((properties (w.cells src).type).phase = pixel_phase.solid
            ∧ ((properties (w.cells dst).type).phase = pixel_phase.liquid
               ∨ (properties (w.cells dst).type).phase = pixel_phase.gas))
        ∨ ((properties (w.cells src).type).phase = pixel_phase.liquid
            ∧ (properties (w.cells dst).type).phase = pixel_phase.gas)) := by
  by_cases hn : (w.cells dst).type = pixel_type.none
  · simp [can_pixel_move_to, hs, hd, hn]
  · rcases hsrc : (properties (w.cells src).type).phase with _ | _ | _ <;>
      rcases hdst : (properties (w.cells dst).type).phase with _ | _ | _ <;>
      simp [can_pixel_move_to, hs, hd, hn, hsrc, hdst]

/-- Witness for C1 at a concrete world: sand at `(1,0)` may move onto the
water at `(0,0)`. -/
theorem C1_can_move_iff_witness :
    can_pixel_move_to w_c1 ((1 : ℤ), (0 : ℤ)) ((0 : ℤ), (0 : ℤ)) = true ↔
      ((w_c1.cells ((0 : ℤ), (0 : ℤ))).type = pixel_type.none
        ∨ ((properties (w_c1.cells ((1 : ℤ), (0 : ℤ))).type).phase = pixel_phase.solid
            ∧ ((properties (w_c1.cells ((0 : ℤ), (0 : ℤ))).type).phase = pixel_phase.liquid
               ∨ (properties (w_c1.cells ((0 : ℤ), (0 : ℤ))).type).phase = pixel_phase.gas))
        ∨ ((properties (w_c1.cells ((1 : ℤ), (0 : ℤ))).type).phase = pixel_phase.liquid
            ∧ (properties (w_c1.cells ((0 : ℤ), (0 : ℤ))).type).phase = pixel_phase.gas)) :=
  C1_can_move_iff w_c1 ((1 : ℤ), (0 : ℤ)) ((0 : ℤ), (0 : ℤ)) (by decide) (by decide)

/-! ## C5 and C9: defaults of the material table -/

/-- C5 (amended): every field of `properties(type)` that the material table
does not explicitly set equals the struct default of src/src/pixel.hpp:
for each of the fifteen types the full record is the default record
updated at exactly the fields the table lists for that material (so every
unlisted field — e.g. `is_ember_source` of `lava` or `put_out` of `sand` —
is the default), and those defaults are zero/false/solid for every field
except `corrosion_resist`, whose default is `0.8` (not zero); moreover
`none`, which the table does not list, explicitly sets `corrosion_resist`
to `1`. -/
theorem C5_default_fields :
    properties pixel_type.fuse = ({} : pixel_properties)
  ∧ properties pixel_type.ember = ({} : pixel_properties)
  ∧ properties pixel_type.oil = ({} : pixel_properties)
  ∧ properties pixel_type.gunpowder = ({} : pixel_properties)
  ∧ properties pixel_type.methane = ({} : pixel_properties)
  ∧ properties pixel_type.sand
      = { ({} : pixel_properties) with
          phase := pixel_phase.solid, is_movable := true, can_move_diagonally := true
          gravity_factor := 1, inertial_resistance := mkRat 1 10
          horizontal_transfer := mkRat 3 10, corrosion_resist := mkRat 3 10 }
  ∧ properties pixel_type.dirt
      = { ({} : pixel_properties) with
          phase := pixel_phase.solid, is_movable := true, can_move_diagonally := true
          gravity_factor := 1, inertial_resistance := mkRat 4 10
          horizontal_transfer := mkRat 2 10, corrosion_resist := mkRat 5 10 }
  ∧ properties pixel_type.coal
      = { ({} : pixel_properties) with
          phase := pixel_phase.solid, is_movable := true, can_move_diagonally := true
          gravity_factor := 1, inertial_resistance := mkRat 95 100
          horizontal_transfer := mkRat 1 10, corrosion_resist := mkRat 8 10
          flammability := mkRat 2 100 }
  ∧ properties pixel_type.water
      = { ({} : pixel_properties) with
          phase := pixel_phase.liquid, gravity_factor := 1
          dispersion_rate := 5, corrosion_resist := 1 }
  ∧ properties pixel_type.lava
      = { ({} : pixel_properties) with
          phase := pixel_phase.liquid, gravity_factor := 1
          dispersion_rate := 1, corrosion_resist := 1
          can_boil_water := true, is_burn_source := true }
  ∧ properties pixel_type.acid
      = { ({} : pixel_properties) with
          phase := pixel_phase.liquid, gravity_factor := 1
          dispersion_rate := 1, corrosion_resist := 1
          is_corrosion_source := true }
  ∧ properties pixel_type.rock
      = { ({} : pixel_properties) with
          phase := pixel_phase.solid, corrosion_resist := mkRat 95 100 }
  ∧ properties pixel_type.titanium
      = { ({} : pixel_properties) with
          phase := pixel_phase.solid, corrosion_resist := 1 }
  ∧ properties pixel_type.steam
      = { ({} : pixel_properties) with
          phase := pixel_phase.gas, gravity_factor := mkRat (-2) 10
          dispersion_rate := 9, corrosion_resist := 0 }
  ∧ ({} : pixel_properties).phase = pixel_phase.solid
  ∧ ({} : pixel_properties).is_movable = false
  ∧ ({} : pixel_properties).can_move_diagonally = false
  ∧ ({} : pixel_properties).gravity_factor = 0
  ∧ ({} : pixel_properties).inertial_resistance = 0
  ∧ ({} : pixel_properties).horizontal_transfer = 0
  ∧ ({} : pixel_properties).dispersion_rate = 0
  ∧ ({} : pixel_properties).can_boil_water = false
  ∧ ({} : pixel_properties).corrosion_resist = mkRat 8 10
  ∧ ({} : pixel_properties).corrosion_resist ≠ 0
  ∧ ({} : pixel_properties).is_corrosion_source = false
  ∧ ({} : pixel_properties).flammability = 0
  ∧ ({} : pixel_properties).put_out_surrounded = 0
  ∧ ({} : pixel_properties).put_out = 0
  ∧ ({} : pixel_properties).burn_out_chance = 0
  ∧ ({} : pixel_properties).is_burn_source = false
  ∧ ({} : pixel_properties).is_ember_source = false
  ∧ properties pixel_type.none = { ({} : pixel_properties) with corrosion_resist := 1 } := by
  decide

/-- Counterexample to C5 as stated: `fuse` has no dedicated case in the
table, yet its `corrosion_resist` is the struct default `0.8`, not zero;
and `none` (also not in the table) has `corrosion_resist = 1`. -/
theorem C5_corrosion_default_cex :
    (properties pixel_type.fuse).corrosion_resist = mkRat 8 10
  ∧ (properties pixel_type.fuse).corrosion_resist ≠ 0
  ∧ (properties pixel_type.none).corrosion_resist = 1
  ∧ (properties pixel_type.none).corrosion_resist ≠ 0 := by
  decide

/-- C9: `properties` is total; for each type without a dedicated case
(`fuse`, `ember`, `oil`, `gunpowder`, `methane`) it returns the
default-constructed record, making such a pixel an immovable solid with
zero flammability, zero dispersion, and no burn/ember/corrosion source
behaviour. -/
theorem C9_missing_types_default :
    (properties pixel_type.fuse = ({} : pixel_properties)
      ∧ properties pixel_type.ember = ({} : pixel_properties)
      ∧ properties pixel_type.oil = ({} : pixel_properties)
      ∧ properties pixel_type.gunpowder = ({} : pixel_properties)
      ∧ properties pixel_type.methane = ({} : pixel_properties))
  ∧ (({} : pixel_properties).phase = pixel_phase.solid
      ∧ ({} : pixel_properties).is_movable = false
      ∧ ({} : pixel_properties).can_move_diagonally = false
      ∧ ({} : pixel_properties).gravity_factor = 0
      ∧ ({} : pixel_properties).flammability = 0
      ∧ ({} : pixel_properties).dispersion_rate = 0
      ∧ ({} : pixel_properties).is_burn_source = false
      ∧ ({} : pixel_properties).is_ember_source = false
      ∧ ({} : pixel_properties).is_corrosion_source = false) := by
  decide

/-! ## C10: skipping already-updated or empty cells is a no-op -/

/-- C10: for every in-bounds position whose cell is empty or already
updated, `update_pixel` returns the world unchanged: every cell and every
chunk flag is untouched. -/
theorem C10_skip_is_noop (w : world) (pos : ivec2) (rng : ℕ → ℚ) (k : ℕ)
    (hv : w.valid pos = true)
    (h : (w.cells pos).type = pixel_type.none ∨ (w.cells pos).flags.is_updated = true) :
    update_pixel w pos rng k = (w, k) := by
  unfold update_pixel
  rw [if_pos h]

/-- Witness for C10: updating the empty cell `(0,0)` of the all-air world
changes nothing. -/
theorem C10_skip_is_noop_witness :
    update_pixel air_world ((0 : ℤ), (0 : ℤ)) (fun _ => 0) 0 = (air_world, 0) :=
  C10_skip_is_noop air_world ((0 : ℤ), (0 : ℤ)) (fun _ => 0) 0 (by decide) (Or.inl (by decide))

/-! ## C7: determinism of the step function -/

/-- C7: the embedded step function is deterministic: two runs from equal
initial worlds with equal seeded sample streams and equal stream positions
produce identical worlds after any equal number of steps.  (In this
functional embedding, all randomness is threaded explicitly through the
stream, so determinism is by construction.) -/
theorem C7_run_deterministic (n : ℕ) (w1 w2 : world) (rng1 rng2 : ℕ → ℚ) (k1 k2 : ℕ)
    (hw : w1 = w2) (hr : rng1 = rng2) (hk : k1 = k2) :
    run_steps n w1 rng1 k1 = run_steps n w2 rng2 k2 := by
  subst hw
  subst hr
  subst hk
  rfl

/-- Witness for C7 at one step of the all-air world. -/
theorem C7_run_deterministic_witness :
    run_steps 1 air_world (fun _ => 0) 0 = run_steps 1 air_world (fun _ => 0) 0 :=
  C7_run_deterministic 1 air_world air_world (fun _ => 0) (fun _ => 0) 0 0 rfl rfl rfl

/-! ## C4: order of the put-out and burn-out checks -/

/-- C4 (amended): for a burning cell the put-out sample is drawn first and
compared against `put_out_surrounded` when `is_surrounded` holds and
`put_out` otherwise; the burn-out check then runs unconditionally: the
cell is replaced with `air()` whenever the second sample is below
`burn_out_chance`, even when the put-out check has just cleared
`is_burning`.  The last two conjuncts tie the parametric body to the
world-level update: `is_surrounded` is true iff no in-bounds neighbour is
empty, and the updated cell is exactly the parametric result. -/
theorem C4_attribute_update_order (props : pixel_properties) (s : Bool) (px : pixel)
    (rng : ℕ → ℚ) (k : ℕ) (hb : px.flags.is_burning = true) :
    (rng k < (if s then props.put_out_surrounded else props.put_out) →
        rng (k + 1) < props.burn_out_chance →
        (attribute_update props s px rng k).1 = pixel.air)
  ∧ (rng k < (if s then props.put_out_surrounded else props.put_out) →
        ¬ rng (k + 1) < props.burn_out_chance →
        (attribute_update props s px rng k).1
          = { px with flags := { px.flags with is_burning := false } })
  ∧ (¬ rng k < (if s then props.put_out_surrounded else props.put_out) →
        ¬ rng (k + 1) < props.burn_out_chance →
        (attribute_update props s px rng k).1 = px)
  ∧ (¬ rng k < (if s then props.put_out_surrounded else props.put_out) →
        rng (k + 1) < props.burn_out_chance →
        (attribute_update props s px rng k).1 = pixel.air)
  ∧ (∀ w pos, is_surrounded w pos = true ↔
        ∀ off ∈ neighbour_offsets, w.valid (pos.1 + off.1, pos.2 + off.2) = true →
          (w.cells (pos.1 + off.1, pos.2 + off.2)).type ≠ pixel_type.none)
  ∧ (∀ (w : world) (pos : ivec2), (w.cells pos).flags.is_burning = true →
        ((update_pixel_attributes w pos rng k).1.cells pos)
          = (attribute_update (properties (w.cells pos).type)
              (is_surrounded w pos) (w.cells pos) rng k).1) := by
  refine ⟨?_, ?_, ?_, ?_, ?_, ?_⟩
  · intro h1 h2
    simp [attribute_update, hb, h1, h2]
  · intro h1 h2
    simp [attribute_update, hb, h1, h2]
  · intro h1 h2
    simp [attribute_update, hb, h1, h2]
  · intro h1 h2
    simp [attribute_update, hb, h1, h2]
  · intro w pos
    simp only [is_surrounded, List.all_eq_true]
    constructor
    · intro h off hoff hvalid
      have := h off hoff
      rw [if_pos hvalid] at this
      simpa using this
    · intro h off hoff
      by_cases hv : w.valid (pos.1 + off.1, pos.2 + off.2) = true
      · rw [if_pos hv]
        simpa using h off hoff hv
      · rw [if_neg hv]
  · intro w pos hburn
    have hc : (w.wake_chunk_with_pixel pos).cells = w.cells := wake_cells w pos
    simp only [update_pixel_attributes, hburn, if_pos, writeCell_cells, if_true]
    have hs2 : is_surrounded (w.wake_chunk_with_pixel pos) pos = is_surrounded w pos := by
      simp only [is_surrounded, hc, world.valid, wake_width, wake_height]
    simp [hs2]

/-- Witness for C4: the record with certain put-out and certain burn-out,
a burning coal pixel, and the all-zero sample stream: the cell is replaced
with air even though the put-out check fired first. -/
theorem C4_attribute_update_order_witness :
    burning_px.flags.is_burning = true
  ∧ (attribute_update props_c4 false burning_px (fun _ => 0) 0).1 = pixel.air :=
  ⟨rfl, (C4_attribute_update_order props_c4 false burning_px (fun _ => 0) 0 rfl).1
    (by decide) (by decide)⟩

/-- Counterexample to C4 as stated: with certain put-out and certain
burn-out, the first sample (0) clears `is_burning`, yet the same attribute
update still replaces the cell with `air()` — a cell whose flag was just
cleared by the put-out check is destroyed in the same update. -/
theorem C4_put_out_then_destroyed_cex :
    burning_px.flags.is_burning = true
  ∧ ((0 : ℚ) < props_c4.put_out)
  ∧ (attribute_update props_c4 false burning_px (fun _ => 0) 0).1 = pixel.air := by
  refine ⟨rfl, by decide, by decide⟩

/-! ## C3: exact wake propagation -/

/-- The wake indicator in arithmetic form, for an in-bounds cell of the
256-cell grid: the home chunk, plus the four boundary crossings with their
conditions; the `x - 1` and `y - 1` crossings additionally require the
neighbouring chunk to exist (`16 ≤ x`, i.e. the chunk column is at least
1), which is what the source's `pixels.valid` guard enforces. -/
theorem wake_hits_iff (x y : ℤ) (c : ivec2)
    (hx0 : 0 ≤ x) (hx : x < 256) (hy0 : 0 ≤ y) (hy : y < 256) :
    wake_hits 256 256 (x, y) c = true ↔
      (c = (x / 16, y / 16)
        ∨ ((x + 1) % 16 = 0 ∧ x + 1 < 256 ∧ c = (x / 16 + 1, y / 16))
        ∨ (x ≠ 0 ∧ (x - 1) % 16 = 0 ∧ 16 ≤ x ∧ c = (x / 16 - 1, y / 16))
        ∨ ((y + 1) % 16 = 0 ∧ y + 1 < 256 ∧ c = (x / 16, y / 16 + 1))
        ∨ (y ≠ 0 ∧ (y - 1) % 16 = 0 ∧ 16 ≤ y ∧ c = (x / 16, y / 16 - 1))) := by
  obtain ⟨c1, c2⟩ := c
  have hdx : Int.tdiv x 16 = x / 16 := Int.tdiv_eq_ediv hx0 (by norm_num)
  have hdy : Int.tdiv y 16 = y / 16 := Int.tdiv_eq_ediv hy0 (by norm_num)
  have hmx1 : Int.tmod (x + 1) 16 = (x + 1) % 16 := Int.tmod_eq_emod (by omega) (by norm_num)
  have hmy1 : Int.tmod (y + 1) 16 = (y + 1) % 16 := Int.tmod_eq_emod (by omega) (by norm_num)
  have hmx2 : (x ≠ 0 ∧ Int.tmod (x - 1) 16 = 0) ↔ (x ≠ 0 ∧ (x - 1) % 16 = 0) := by
    constructor
    · rintro ⟨h1, h2⟩
      rw [Int.tmod_eq_emod (by omega) (by norm_num)] at h2
      exact ⟨h1, h2⟩
    · rintro ⟨h1, h2⟩
      rw [Int.tmod_eq_emod (by omega) (by norm_num)]
      exact ⟨h1, h2⟩
  have hmy2 : (y ≠ 0 ∧ Int.tmod (y - 1) 16 = 0) ↔ (y ≠ 0 ∧ (y - 1) % 16 = 0) := by
    constructor
    · rintro ⟨h1, h2⟩
      rw [Int.tmod_eq_emod (by omega) (by norm_num)] at h2
      exact ⟨h1, h2⟩
    · rintro ⟨h1, h2⟩
      rw [Int.tmod_eq_emod (by omega) (by norm_num)]
      exact ⟨h1, h2⟩
  simp only [wake_hits, chunk_size, world_size, valid_dims, hdx, hdy, hmx1, hmy1, hmx2, hmy2,
    Bool.or_eq_true, Bool.and_eq_true, decide_eq_true_eq, Prod.mk.injEq]
  have hr : ((x ≠ 256 - 1 ∧ (x + 1) % 16 = 0)
        ∧ ((0 ≤ x / 16 + 1 ∧ x / 16 + 1 < 256) ∧ 0 ≤ y / 16) ∧ y / 16 < 256)
      ↔ ((x + 1) % 16 = 0 ∧ x + 1 < 256) := by omega
  have hl : ((x ≠ 0 ∧ (x - 1) % 16 = 0)
        ∧ ((0 ≤ x / 16 - 1 ∧ x / 16 - 1 < 256) ∧ 0 ≤ y / 16) ∧ y / 16 < 256)
      ↔ (x ≠ 0 ∧ (x - 1) % 16 = 0 ∧ 16 ≤ x) := by omega
  have hd : ((y ≠ 256 - 1 ∧ (y + 1) % 16 = 0)
        ∧ ((0 ≤ x / 16 ∧ x / 16 < 256) ∧ 0 ≤ y / 16 + 1) ∧ y / 16 + 1 < 256)
      ↔ ((y + 1) % 16 = 0 ∧ y + 1 < 256) := by omega
  have hu : ((y ≠ 0 ∧ (y - 1) % 16 = 0)
        ∧ ((0 ≤ x / 16 ∧ x / 16 < 256) ∧ 0 ≤ y / 16 - 1) ∧ y / 16 - 1 < 256)
      ↔ (y ≠ 0 ∧ (y - 1) % 16 = 0 ∧ 16 ≤ y) := by omega
  rw [hr, hl, hd, hu]
  simp only [or_assoc, and_assoc]

/-- C3: a write at an in-bounds cell `(x,y)` of the 256-cell world wakes
(`should_step_next := true`) exactly the chunk `(x/16, y/16)`, plus
`(x/16+1, y/16)` exactly when `(x+1) % 16 = 0` and `x+1 < 256`, plus
`(x/16-1, y/16)` exactly under the `x-1` analogue of that rule (with the
neighbouring chunk in range), and likewise for the `y` crossings; no other
chunk's `should_step_next` is set (already-woken chunks stay woken), and
no chunk's `should_step` changes. -/
theorem C3_wake_exact (w : world) (x y : ℤ)
    (hw : w.width = 256) (hh : w.height = 256)
    (hx0 : 0 ≤ x) (hx : x < 256) (hy0 : 0 ≤ y) (hy : y < 256) :
    (∀ c : ivec2,
      ((w.wake_chunk_with_pixel (x, y)).chunks c).should_step_next = true ↔
        ((w.chunks c).should_step_next = true
          ∨ c = (x / 16, y / 16)
          ∨ ((x + 1) % 16 = 0 ∧ x + 1 < 256 ∧ c = (x / 16 + 1, y / 16))
          ∨ (x ≠ 0 ∧ (x - 1) % 16 = 0 ∧ 16 ≤ x ∧ c = (x / 16 - 1, y / 16))
          ∨ ((y + 1) % 16 = 0 ∧ y + 1 < 256 ∧ c = (x / 16, y / 16 + 1))
          ∨ (y ≠ 0 ∧ (y - 1) % 16 = 0 ∧ 16 ≤ y ∧ c = (x / 16, y / 16 - 1))))
    ∧ (∀ c : ivec2,
        ((w.wake_chunk_with_pixel (x, y)).chunks c).should_step = (w.chunks c).should_step) := by
  constructor
  · intro c
    rw [wake_chunks_next, hw, hh, Bool.or_eq_true, wake_hits_iff x y c hx0 hx hy0 hy]
  · intro c
    exact wake_chunks_step w (x, y) c

/-- Witness for C3: the cell `(15, 0)` of the all-air world (right edge of
chunk `(0,0)`), evaluated at the woken neighbour chunk `(1,0)`. -/
theorem C3_wake_exact_witness :
    (((air_world.wake_chunk_with_pixel ((15 : ℤ), (0 : ℤ))).chunks
        ((1 : ℤ), (0 : ℤ))).should_step_next = true ↔
      ((air_world.chunks ((1 : ℤ), (0 : ℤ))).should_step_next = true
        ∨ ((1 : ℤ), (0 : ℤ)) = (((15 : ℤ) / 16, (0 : ℤ) / 16) : ivec2)
        ∨ (((15 : ℤ) + 1) % 16 = 0 ∧ (15 : ℤ) + 1 < 256
            ∧ ((1 : ℤ), (0 : ℤ)) = (((15 : ℤ) / 16 + 1, (0 : ℤ) / 16) : ivec2))
        ∨ ((15 : ℤ) ≠ 0 ∧ ((15 : ℤ) - 1) % 16 = 0 ∧ (16 : ℤ) ≤ 15
            ∧ ((1 : ℤ), (0 : ℤ)) = (((15 : ℤ) / 16 - 1, (0 : ℤ) / 16) : ivec2))
        ∨ (((0 : ℤ) + 1) % 16 = 0 ∧ (0 : ℤ) + 1 < 256
            ∧ ((1 : ℤ), (0 : ℤ)) = (((15 : ℤ) / 16, (0 : ℤ) / 16 + 1) : ivec2))
        ∨ ((0 : ℤ) ≠ 0 ∧ ((0 : ℤ) - 1) % 16 = 0 ∧ (16 : ℤ) ≤ 0
            ∧ ((1 : ℤ), (0 : ℤ)) = (((15 : ℤ) / 16, (0 : ℤ) / 16 - 1) : ivec2))))
    ∧ ((air_world.wake_chunk_with_pixel ((15 : ℤ), (0 : ℤ))).chunks
        ((0 : ℤ), (0 : ℤ))).should_step = (air_world.chunks ((0 : ℤ), (0 : ℤ))).should_step :=
  ⟨(C3_wake_exact air_world 15 0 rfl rfl (by decide) (by decide) (by decide) (by decide)).1
      ((1 : ℤ), (0 : ℤ)),
   (C3_wake_exact air_world 15 0 rfl rfl (by decide) (by decide) (by decide) (by decide)).2
      ((0 : ℤ), (0 : ℤ))⟩

/-! ## C8: waking the horizontal neighbours after a move step -/

theorem setFlagFalling_cells (w : world) (p : ivec2) (v : Bool) (q : ivec2) :
    (w.setFlagFalling p v).cells q
      = if q = p then { w.cells p with flags := { (w.cells p).flags with is_falling := v } }
        else w.cells q := rfl

theorem setFlagFalling_chunks (w : world) (p : ivec2) (v : Bool) :
    (w.setFlagFalling p v).chunks = w.chunks := rfl

theorem setFlagFalling_valid (w : world) (p : ivec2) (v : Bool) :
    (w.setFlagFalling p v).valid = w.valid := rfl

/-- `saff_one` does nothing when the neighbour is out of bounds or has zero
`gravity_factor`. -/
theorem saff_one_skip (w : world) (l x : ivec2) (rng : ℕ → ℚ) (k : ℕ)
    (h : ¬ (w.valid x = true ∧ (properties (w.cells x).type).gravity_factor ≠ 0)) :
    saff_one w l x rng k = (w, k) := by
  unfold saff_one
  by_cases hv : w.valid x = true
  · rw [if_pos hv, if_neg]
    intro hg
    exact h ⟨hv, hg⟩
  · rw [if_neg hv]

/-- `saff_one` on a gravity-affected neighbour: wake the chunk of `l`
(unconditionally), then set the flag exactly when the sample beats the
inertial resistance. -/
theorem saff_one_fire (w : world) (l x : ivec2) (rng : ℕ → ℚ) (k : ℕ)
    (hv : w.valid x = true) (hg : (properties (w.cells x).type).gravity_factor ≠ 0) :
    saff_one w l x rng k
      = (if (properties (w.cells x).type).inertial_resistance < rng k
          then (w.wake_chunk_with_pixel l).setFlagFalling x true
          else w.wake_chunk_with_pixel l, k + 1) := by
  unfold saff_one
  rw [if_pos hv, if_pos hg]

/-- C8 (amended): after a move step, for each horizontal neighbour of the
new position with non-zero `gravity_factor` the source wakes the chunk of
the LEFT position `l` — for both neighbours, and before (independently of)
the inertial sample — and sets that neighbour's `is_falling` exactly when
its fresh sample exceeds its `inertial_resistance`: on a failing sample
the neighbour's whole cell (its `is_falling` flag included) is left
exactly as it was.  A neighbour with zero `gravity_factor` is left
entirely unchanged and consumes no sample.  The cells other than `l` and
`r` never change, no change other than raising `is_falling` happens, and
the chunk flags change exactly by a `wake_chunk_with_pixel l` when at
least one neighbour has gravity. -/
theorem C8_adjacent_falling (w : world) (pos : ivec2) (rng : ℕ → ℚ) (k : ℕ)
    (l r : ivec2) (kr : ℕ)
    (hl : l = (pos.1 - 1, pos.2)) (hr : r = (pos.1 + 1, pos.2))
    (hkr : kr = if w.valid l = true ∧ (properties (w.cells l).type).gravity_factor ≠ 0
        then k + 1 else k) :
    (∀ q : ivec2, q ≠ l → q ≠ r →
        ((set_adjacent_free_falling w pos rng k).1.cells q) = w.cells q)
  ∧ (∀ q : ivec2,
        ((set_adjacent_free_falling w pos rng k).1.cells q) = w.cells q
        ∨ ((set_adjacent_free_falling w pos rng k).1.cells q)
            = { w.cells q with flags := { (w.cells q).flags with is_falling := true } })
  ∧ (w.valid r = true → (properties (w.cells r).type).gravity_factor ≠ 0 →
        (properties (w.cells r).type).inertial_resistance < rng kr →
        ((set_adjacent_free_falling w pos rng k).1.cells r).flags.is_falling = true)
  ∧ (w.valid r = true → (properties (w.cells r).type).gravity_factor = 0 →
        ((set_adjacent_free_falling w pos rng k).1.cells r) = w.cells r)
  ∧ (w.valid l = true → (properties (w.cells l).type).gravity_factor ≠ 0 →
        (properties (w.cells l).type).inertial_resistance < rng k →
        ((set_adjacent_free_falling w pos rng k).1.cells l).flags.is_falling = true)
  ∧ (w.valid l = true → (properties (w.cells l).type).gravity_factor = 0 →
        ((set_adjacent_free_falling w pos rng k).1.cells l) = w.cells l)
  ∧ (∀ c : ivec2,
        ((set_adjacent_free_falling w pos rng k).1.chunks c).should_step_next
          = (if (w.valid l = true ∧ (properties (w.cells l).type).gravity_factor ≠ 0)
              ∨ (w.valid r = true ∧ (properties (w.cells r).type).gravity_factor ≠ 0)
            then ((w.wake_chunk_with_pixel l).chunks c).should_step_next
            else (w.chunks c).should_step_next))
  ∧ (∀ c : ivec2,
        ((set_adjacent_free_falling w pos rng k).1.chunks c).should_step
          = (w.chunks c).should_step)
  ∧ (w.valid r = true → (properties (w.cells r).type).gravity_factor ≠ 0 →
        ¬ (properties (w.cells r).type).inertial_resistance < rng kr →
        ((set_adjacent_free_falling w pos rng k).1.cells r) = w.cells r)
  ∧ (w.valid l = true → (properties (w.cells l).type).gravity_factor ≠ 0 →
        ¬ (properties (w.cells l).type).inertial_resistance < rng k →
        ((set_adjacent_free_falling w pos rng k).1.cells l) = w.cells l) := by
  subst hl
  subst hr
  have hne : ((pos.1 + 1, pos.2) : ivec2) ≠ (pos.1 - 1, pos.2) := by
    intro hcontra
    rw [Prod.mk.injEq] at hcontra
    omega
  have hne2 : ((pos.1 - 1, pos.2) : ivec2) ≠ (pos.1 + 1, pos.2) := by
    intro hcontra
    rw [Prod.mk.injEq] at hcontra
    omega
  set l : ivec2 := (pos.1 - 1, pos.2) with hldef
  set r : ivec2 := (pos.1 + 1, pos.2) with hrdef
  by_cases hLf : w.valid l = true ∧ (properties (w.cells l).type).gravity_factor ≠ 0
  · -- left neighbour fires
    rw [if_pos hLf] at hkr
    obtain ⟨hLv, hLg⟩ := hLf
    have step1 : saff_one w l l rng k
        = (if (properties (w.cells l).type).inertial_resistance < rng k
            then (w.wake_chunk_with_pixel l).setFlagFalling l true
            else w.wake_chunk_with_pixel l, k + 1) := saff_one_fire w l l rng k hLv hLg
    set W1 : world := if (properties (w.cells l).type).inertial_resistance < rng k
        then (w.wake_chunk_with_pixel l).setFlagFalling l true
        else w.wake_chunk_with_pixel l with hW1
    have hW1valid : W1.valid = w.valid := by
      rw [hW1]
      split_ifs
      · rw [setFlagFalling_valid, wake_valid]
      · rw [wake_valid]
    have hW1cells_rest : ∀ q : ivec2, q ≠ l → W1.cells q = w.cells q := by
      intro q hq
      rw [hW1]
      split_ifs
      · rw [setFlagFalling_cells, if_neg hq, wake_cells]
      · rw [wake_cells]
    have hW1cells_l : W1.cells l = w.cells l
        ∨ W1.cells l = { w.cells l with flags := { (w.cells l).flags with is_falling := true } } := by
      rw [hW1]
      split_ifs
      · right
        rw [setFlagFalling_cells, if_pos rfl, wake_cells]
      · left
        rw [wake_cells]
    have hW1chunks : W1.chunks = (w.wake_chunk_with_pixel l).chunks := by
      rw [hW1]
      split_ifs
      · rw [setFlagFalling_chunks]
      · rfl
    have h0 : set_adjacent_free_falling w pos rng k
        = saff_one (saff_one w l l rng k).1 l r rng (saff_one w l l rng k).2 := rfl
    have hsaff : set_adjacent_free_falling w pos rng k = saff_one W1 l r rng (k + 1) := by
      rw [h0, step1]
    by_cases hRf : w.valid r = true ∧ (properties (w.cells r).type).gravity_factor ≠ 0
    · obtain ⟨hRv, hRg⟩ := hRf
      have hRv1 : W1.valid r = true := by rw [hW1valid]; exact hRv
      have hRc1 : W1.cells r = w.cells r := hW1cells_rest r hne
      have step2 : saff_one W1 l r rng (k + 1)
          = (if (properties (W1.cells r).type).inertial_resistance < rng (k + 1)
              then (W1.wake_chunk_with_pixel l).setFlagFalling r true
              else W1.wake_chunk_with_pixel l, k + 2) := by
        rw [saff_one_fire W1 l r rng (k + 1) hRv1 (by rw [hRc1]; exact hRg)]
      rw [hsaff, step2]
      refine ⟨?_, ?_, ?_, ?_, ?_, ?_, ?_, ?_, ?_, ?_⟩
      · intro q hql hqr
        simp only
        split_ifs
        · rw [setFlagFalling_cells, if_neg hqr, wake_cells, hW1cells_rest q hql]
        · rw [wake_cells, hW1cells_rest q hql]
      · intro q
        by_cases hql : q = l
        · subst hql
          simp only
          split_ifs
          · rw [setFlagFalling_cells, if_neg hne2, wake_cells]
            exact hW1cells_l
          · rw [wake_cells]
            exact hW1cells_l
        · by_cases hqr : q = r
          · subst hqr
            simp only
            split_ifs
            · right
              rw [setFlagFalling_cells, if_pos rfl, wake_cells, hRc1]
            · left
              rw [wake_cells, hRc1]
          · left
            simp only
            split_ifs
            · rw [setFlagFalling_cells, if_neg hqr, wake_cells, hW1cells_rest q hql]
            · rw [wake_cells, hW1cells_rest q hql]
      · intro _ _ hs
        rw [hkr] at hs
        simp only
        rw [hRc1, if_pos hs, setFlagFalling_cells, if_pos rfl]
      · intro _ hg0
        exact absurd hg0 hRg
      · intro _ _ hs
        simp only
        split_ifs
        · rw [setFlagFalling_cells, if_neg hne2, wake_cells, hW1]
          rw [if_pos hs, setFlagFalling_cells, if_pos rfl, wake_cells]
        · rw [wake_cells, hW1]
          rw [if_pos hs, setFlagFalling_cells, if_pos rfl, wake_cells]
      · intro _ hg0
        exact absurd hg0 hLg
      · intro c
        rw [if_pos (Or.inl ⟨hLv, hLg⟩)]
        simp only
        have hWW : ((W1.wake_chunk_with_pixel l).chunks c).should_step_next
            = ((w.wake_chunk_with_pixel l).chunks c).should_step_next := by
          rw [wake_chunks_next, hW1chunks, wake_chunks_next]
          have hwd : W1.width = w.width := by
            rw [hW1]; split_ifs
            · rw [show (((w.wake_chunk_with_pixel l).setFlagFalling l true)).width
                  = (w.wake_chunk_with_pixel l).width from rfl, wake_width]
            · rw [wake_width]
          have hht : W1.height = w.height := by
            rw [hW1]; split_ifs
            · rw [show (((w.wake_chunk_with_pixel l).setFlagFalling l true)).height
                  = (w.wake_chunk_with_pixel l).height from rfl, wake_height]
            · rw [wake_height]
          rw [hwd, hht, Bool.or_assoc, Bool.or_self]
        split_ifs
        · rw [show ((W1.wake_chunk_with_pixel l).setFlagFalling r true).chunks
              = (W1.wake_chunk_with_pixel l).chunks from rfl, hWW]
        · rw [hWW]
      · intro c
        simp only
        split_ifs
        · rw [show ((W1.wake_chunk_with_pixel l).setFlagFalling r true).chunks
              = (W1.wake_chunk_with_pixel l).chunks from rfl,
            wake_chunks_step, hW1chunks, wake_chunks_step]
        · rw [wake_chunks_step, hW1chunks, wake_chunks_step]
      · intro _ _ hs
        rw [hkr] at hs
        simp only
        rw [hRc1, if_neg hs, wake_cells, hRc1]
      · intro _ _ hs
        simp only
        split_ifs
        · rw [setFlagFalling_cells, if_neg hne2, wake_cells, hW1]
          rw [if_neg hs, wake_cells]
        · rw [wake_cells, hW1]
          rw [if_neg hs, wake_cells]
    · -- right does not fire
      have hRc1 : W1.cells r = w.cells r := hW1cells_rest r hne
      have step2 : saff_one W1 l r rng (k + 1) = (W1, k + 1) := by
        apply saff_one_skip
        intro hcontra
        apply hRf
        rw [hW1valid] at hcontra
        rw [hRc1] at hcontra
        exact hcontra
      rw [hsaff, step2]
      refine ⟨?_, ?_, ?_, ?_, ?_, ?_, ?_, ?_, ?_, ?_⟩
      · intro q hql _
        exact hW1cells_rest q hql
      · intro q
        by_cases hql : q = l
        · subst hql
          exact hW1cells_l
        · left
          exact hW1cells_rest q hql
      · intro hRv hRg _
        exact absurd ⟨hRv, hRg⟩ hRf
      · intro hRv _
        exact hRc1
      · intro _ _ hs
        rw [hW1]
        rw [if_pos hs, setFlagFalling_cells, if_pos rfl, wake_cells]
      · intro _ hg0
        exact absurd hg0 hLg
      · intro c
        rw [if_pos (Or.inl ⟨hLv, hLg⟩), hW1chunks]
      · intro c
        rw [hW1chunks, wake_chunks_step]
      · intro hRv hRg _
        exact absurd ⟨hRv, hRg⟩ hRf
      · intro _ _ hs
        rw [hW1]
        rw [if_neg hs, wake_cells]
  · -- left neighbour does not fire
    rw [if_neg hLf] at hkr
    have step1 : saff_one w l l rng k = (w, k) := saff_one_skip w l l rng k hLf
    have h0 : set_adjacent_free_falling w pos rng k
        = saff_one (saff_one w l l rng k).1 l r rng (saff_one w l l rng k).2 := rfl
    have hsaff : set_adjacent_free_falling w pos rng k = saff_one w l r rng k := by
      rw [h0, step1]
    by_cases hRf : w.valid r = true ∧ (properties (w.cells r).type).gravity_factor ≠ 0
    · obtain ⟨hRv, hRg⟩ := hRf
      have step2 : saff_one w l r rng k
          = (if (properties (w.cells r).type).inertial_resistance < rng k
              then (w.wake_chunk_with_pixel l).setFlagFalling r true
              else w.wake_chunk_with_pixel l, k + 1) := saff_one_fire w l r rng k hRv hRg
      rw [hsaff, step2]
      refine ⟨?_, ?_, ?_, ?_, ?_, ?_, ?_, ?_, ?_, ?_⟩
      · intro q _ hqr
        simp only
        split_ifs
        · rw [setFlagFalling_cells, if_neg hqr, wake_cells]
        · rw [wake_cells]
      · intro q
        by_cases hqr : q = r
        · subst hqr
          simp only
          split_ifs
          · right
            rw [setFlagFalling_cells, if_pos rfl, wake_cells]
          · left
            rw [wake_cells]
        · left
          simp only
          split_ifs
          · rw [setFlagFalling_cells, if_neg hqr, wake_cells]
          · rw [wake_cells]
      · intro _ _ hs
        rw [hkr] at hs
        simp only
        rw [if_pos hs, setFlagFalling_cells, if_pos rfl]
      · intro _ hg0
        exact absurd hg0 hRg
      · intro hLv hLg _
        exact absurd ⟨hLv, hLg⟩ hLf
      · intro hLv hLg0
        simp only
        split_ifs
        · rw [setFlagFalling_cells, if_neg hne2, wake_cells]
        · rw [wake_cells]
      · intro c
        rw [if_pos (Or.inr ⟨hRv, hRg⟩)]
        simp only
        split_ifs
        · rw [show ((w.wake_chunk_with_pixel l).setFlagFalling r true).chunks
              = (w.wake_chunk_with_pixel l).chunks from rfl]
        · rfl
      · intro c
        simp only
        split_ifs
        · rw [show ((w.wake_chunk_with_pixel l).setFlagFalling r true).chunks
              = (w.wake_chunk_with_pixel l).chunks from rfl, wake_chunks_step]
        · rw [wake_chunks_step]
      · intro _ _ hs
        rw [hkr] at hs
        simp only
        rw [if_neg hs, wake_cells]
      · intro hLv hLg _
        exact absurd ⟨hLv, hLg⟩ hLf
    · have step2 : saff_one w l r rng k = (w, k) := saff_one_skip w l r rng k hRf
      rw [hsaff, step2]
      refine ⟨?_, ?_, ?_, ?_, ?_, ?_, ?_, ?_, ?_, ?_⟩
      · intro _ _ _
        rfl
      · intro q
        left
        rfl
      · intro hRv hRg _
        exact absurd ⟨hRv, hRg⟩ hRf
      · intro _ _
        rfl
      · intro hLv hLg _
        exact absurd ⟨hLv, hLg⟩ hLf
      · intro _ _
        rfl
      · intro c
        rw [if_neg]
        rintro (h | h)
        · exact hLf h
        · exact hRf h
      · intro c
        rfl
      · intro hRv hRg _
        exact absurd ⟨hRv, hRg⟩ hRf
      · intro hLv hLg _
        exact absurd ⟨hLv, hLg⟩ hLf

/-- Witness for C8: at position `(15,0)` of `w_c8`, the right neighbour
`(16,0)` is sand; with sample `1/2 > 0.1` its `is_falling` flag is set. -/
theorem C8_adjacent_falling_witness :
    w_c8.valid ((16 : ℤ), (0 : ℤ)) = true
  ∧ (properties (w_c8.cells ((16 : ℤ), (0 : ℤ))).type).gravity_factor ≠ 0
  ∧ (properties (w_c8.cells ((16 : ℤ), (0 : ℤ))).type).inertial_resistance
      < (fun _ => mkRat 1 2) 0
  ∧ ((set_adjacent_free_falling w_c8 ((15 : ℤ), (0 : ℤ)) (fun _ => mkRat 1 2) 0).1.cells
      ((16 : ℤ), (0 : ℤ))).flags.is_falling = true :=
  ⟨by decide, by decide, by decide,
    (C8_adjacent_falling w_c8 ((15 : ℤ), (0 : ℤ)) (fun _ => mkRat 1 2) 0
      ((14 : ℤ), (0 : ℤ)) ((16 : ℤ), (0 : ℤ)) 0 (by decide) (by decide) (by decide)).2.2.1
      (by decide) (by decide) (by decide)⟩

/-- Counterexample to C8 as stated: the right neighbour `(16,0)` of
position `(15,0)` has non-zero gravity and its sample `1/2` exceeds its
inertial resistance, so the claim demands that its own chunk `(1,0)` be
woken; but the source wakes the chunk of the left position `(14,0)` (chunk
`(0,0)`) for both neighbours, and chunk `(1,0)` stays asleep even though
the flag is set. -/
theorem C8_wrong_chunk_cex :
    w_c8.valid ((16 : ℤ), (0 : ℤ)) = true
  ∧ (properties (w_c8.cells ((16 : ℤ), (0 : ℤ))).type).gravity_factor ≠ 0
  ∧ (properties (w_c8.cells ((16 : ℤ), (0 : ℤ))).type).inertial_resistance
      < (fun _ => mkRat 1 2) 0
  ∧ Int.tdiv 16 chunk_size = 1
  ∧ ((set_adjacent_free_falling w_c8 ((15 : ℤ), (0 : ℤ)) (fun _ => mkRat 1 2) 0).1.cells
      ((16 : ℤ), (0 : ℤ))).flags.is_falling = true
  ∧ ((set_adjacent_free_falling w_c8 ((15 : ℤ), (0 : ℤ)) (fun _ => mkRat 1 2) 0).1.chunks
      ((1 : ℤ), (0 : ℤ))).should_step_next = false
  ∧ ((set_adjacent_free_falling w_c8 ((15 : ℤ), (0 : ℤ)) (fun _ => mkRat 1 2) 0).1.chunks
      ((0 : ℤ), (0 : ℤ))).should_step_next = true := by
  decide

/-! ## C2: explosions and titanium -/

theorem set_cells (w : world) (p : ivec2) (px : pixel) (q : ivec2) :
    (w.set p px).cells q = if q = p then px else w.cells q := by
  show ((w.writeCell p px).wake_chunk_with_pixel p).cells q = _
  rw [wake_cells]
  rfl

theorem set_width (w : world) (p : ivec2) (px : pixel) : (w.set p px).width = w.width := by
  show ((w.writeCell p px).wake_chunk_with_pixel p).width = _
  rw [wake_width]
  rfl

theorem set_height (w : world) (p : ivec2) (px : pixel) : (w.set p px).height = w.height := by
  show ((w.writeCell p px).wake_chunk_with_pixel p).height = _
  rw [wake_height]
  rfl

/-- The destruction loop does not change the grid dimensions. -/
theorem destruct_width (start stepv : vec2) (blast2 : ℚ) (rng : ℕ → ℚ) :
    ∀ (fuel : ℕ) (w : world) (curr : vec2) (k : ℕ),
      ((explosion_ray_destruct start stepv blast2 rng fuel w curr k).1).width = w.width := by
  intro fuel
  induction fuel with
  | zero => intro w curr k; rfl
  | succ fuel ih =>
      intro w curr k
      simp only [explosion_ray_destruct]
      split_ifs with h1 h2 h3
      · rfl
      · rw [ih, set_width]
      · rw [ih, set_width]
      · rfl

/-- Titanium cells keep their type through the destruction loop: the loop
overwrites only cells it has just checked to be non-titanium. -/
theorem destruct_titanium (start stepv : vec2) (blast2 : ℚ) (rng : ℕ → ℚ) :
    ∀ (fuel : ℕ) (w : world) (curr : vec2) (k : ℕ) (p : ivec2),
      (w.cells p).type = pixel_type.titanium →
      (((explosion_ray_destruct start stepv blast2 rng fuel w curr k).1).cells p).type
        = pixel_type.titanium := by
  intro fuel
  induction fuel with
  | zero => intro w curr k p hp; exact hp
  | succ fuel ih =>
      intro w curr k p hp
      simp only [explosion_ray_destruct]
      split_ifs with h1 h2 h3
      · exact hp
      · have hne : p ≠ vtrunc curr := by
          intro he
          rw [he] at hp
          exact h2 hp
        apply ih
        rw [set_cells, if_neg hne]
        exact hp
      · have hne : p ≠ vtrunc curr := by
          intro he
          rw [he] at hp
          exact h2 hp
        apply ih
        rw [set_cells, if_neg hne]
        exact hp
      · exact hp

/-- The destruction loop stops at a titanium cell: whenever the current
walk position holds titanium, nothing further is modified. -/
theorem destruct_stops (start stepv : vec2) (blast2 : ℚ) (rng : ℕ → ℚ)
    (fuel : ℕ) (w : world) (curr : vec2) (k : ℕ)
    (h : (w.cells (vtrunc curr)).type = pixel_type.titanium) :
    explosion_ray_destruct start stepv blast2 rng fuel w curr k = (w, curr, k) := by
  cases fuel with
  | zero => rfl
  | succ fuel =>
      simp only [explosion_ray_destruct]
      split_ifs with h1
      · rfl
      · rfl

/-- Row blocking: if every in-bounds cell of row `yt` is titanium, the walk
starts at or above row `yt`, and the step never descends more than one row
per iteration, then the destruction loop never changes the type of any
cell strictly below row `yt`. -/
theorem destruct_blocked (start stepv : vec2) (blast2 : ℚ) (rng : ℕ → ℚ) (yt : ℤ)
    (hstep : stepv.y ≤ 1) :
    ∀ (fuel : ℕ) (w : world) (curr : vec2) (k : ℕ),
      (∀ x : ℤ, 0 ≤ x → x < w.width → (w.cells (x, yt)).type = pixel_type.titanium) →
      qtrunc curr.y ≤ yt →
      ∀ q : ivec2, yt < q.2 →
      (((explosion_ray_destruct start stepv blast2 rng fuel w curr k).1).cells q).type
        = (w.cells q).type := by
  intro fuel
  induction fuel with
  | zero => intro w curr k _ _ q _; rfl
  | succ fuel ih =>
      intro w curr k hrow hcurr q hq
      have hltgen : w.valid (vtrunc curr) = true →
          ¬ (w.cells (vtrunc curr)).type = pixel_type.titanium → qtrunc curr.y < yt := by
        intro hv0 hti
        rcases lt_or_eq_of_le hcurr with h | h
        · exact h
        · exfalso
          apply hti
          rw [world.valid, valid_dims] at hv0
          simp only [Bool.and_eq_true, decide_eq_true_eq] at hv0
          have hvt : (vtrunc curr) = (qtrunc curr.x, yt) := by
            rw [vtrunc, h]
          rw [hvt]
          exact hrow (qtrunc curr.x) hv0.1.1.1 hv0.1.1.2
      have key : ∀ px : pixel, qtrunc curr.y < yt →
          ((explosion_ray_destruct start stepv blast2 rng fuel
              (w.set (vtrunc curr) px) (vadd curr stepv) (k + 1)).1.cells q).type
            = (w.cells q).type := by
        intro px hlt
        have hrow2 : ∀ x : ℤ, 0 ≤ x → x < (w.set (vtrunc curr) px).width →
            ((w.set (vtrunc curr) px).cells (x, yt)).type = pixel_type.titanium := by
          intro x hx0 hxw
          rw [set_width] at hxw
          rw [set_cells, if_neg]
          · exact hrow x hx0 hxw
          · intro he
            have h2c := congrArg Prod.snd he
            simp only [vtrunc] at h2c
            omega
        have hcurr2 : qtrunc (vadd curr stepv).y ≤ yt := by
          have h3 : qtrunc (qadd curr.y stepv.y) ≤ qtrunc curr.y + 1 := qtrunc_step_le hstep curr.y
          have h4 : (vadd curr stepv).y = qadd curr.y stepv.y := rfl
          rw [h4]
          omega
        rw [ih _ _ _ hrow2 hcurr2 q hq]
        rw [set_cells, if_neg]
        intro he
        have h2c := congrArg Prod.snd he
        simp only [vtrunc] at h2c
        omega
      simp only [explosion_ray_destruct]
      split_ifs with h1 h2 h3
      · rfl
      · exact key _ (hltgen h1.1 h2)
      · exact key _ (hltgen h1.1 h2)
      · rfl

/-- Row blocking, mirror orientation: if every in-bounds cell of row `yt`
is titanium, the walk starts at or below row `yt`, and the step never
climbs more than one row per iteration, then the destruction loop never
changes the type of any cell strictly above row `yt`. -/
theorem destruct_blocked_above (start stepv : vec2) (blast2 : ℚ) (rng : ℕ → ℚ) (yt : ℤ)
    (hstep : -1 ≤ stepv.y) :
    ∀ (fuel : ℕ) (w : world) (curr : vec2) (k : ℕ),
      (∀ x : ℤ, 0 ≤ x → x < w.width → (w.cells (x, yt)).type = pixel_type.titanium) →
      yt ≤ qtrunc curr.y →
      ∀ q : ivec2, q.2 < yt →
      (((explosion_ray_destruct start stepv blast2 rng fuel w curr k).1).cells q).type
        = (w.cells q).type := by
  intro fuel
  induction fuel with
  | zero => intro w curr k _ _ q _; rfl
  | succ fuel ih =>
      intro w curr k hrow hcurr q hq
      have hltgen : w.valid (vtrunc curr) = true →
          ¬ (w.cells (vtrunc curr)).type = pixel_type.titanium → yt < qtrunc curr.y := by
        intro hv0 hti
        rcases lt_or_eq_of_le hcurr with h | h
        · exact h
        · exfalso
          apply hti
          rw [world.valid, valid_dims] at hv0
          simp only [Bool.and_eq_true, decide_eq_true_eq] at hv0
          have hvt : (vtrunc curr) = (qtrunc curr.x, yt) := by
            rw [vtrunc, ← h]
          rw [hvt]
          exact hrow (qtrunc curr.x) hv0.1.1.1 hv0.1.1.2
      have key : ∀ px : pixel, yt < qtrunc curr.y →
          ((explosion_ray_destruct start stepv blast2 rng fuel
              (w.set (vtrunc curr) px) (vadd curr stepv) (k + 1)).1.cells q).type
            = (w.cells q).type := by
        intro px hlt
        have hrow2 : ∀ x : ℤ, 0 ≤ x → x < (w.set (vtrunc curr) px).width →
            ((w.set (vtrunc curr) px).cells (x, yt)).type = pixel_type.titanium := by
          intro x hx0 hxw
          rw [set_width] at hxw
          rw [set_cells, if_neg]
          · exact hrow x hx0 hxw
          · intro he
            have h2c := congrArg Prod.snd he
            simp only [vtrunc] at h2c
            omega
        have hcurr2 : yt ≤ qtrunc (vadd curr stepv).y := by
          have h3 : qtrunc curr.y - 1 ≤ qtrunc (qadd curr.y stepv.y) := qtrunc_step_ge hstep curr.y
          have h4 : (vadd curr stepv).y = qadd curr.y stepv.y := rfl
          rw [h4]
          omega
        rw [ih _ _ _ hrow2 hcurr2 q hq]
        rw [set_cells, if_neg]
        intro he
        have h2c := congrArg Prod.snd he
        simp only [vtrunc] at h2c
        omega
      simp only [explosion_ray_destruct]
      split_ifs with h1 h2 h3
      · rfl
      · exact key _ (hltgen h1.1 h2)
      · exact key _ (hltgen h1.1 h2)
      · rfl

/-- The scorch loop never changes any cell's type (it only darkens
colours). -/
theorem scorch_type (start stepv : vec2) (L n : ℚ) :
    ∀ (fuel : ℕ) (w : world) (curr : vec2) (p : ivec2),
      (((explosion_ray_scorch start stepv L n fuel w curr).1).cells p).type
        = (w.cells p).type := by
  intro fuel
  induction fuel with
  | zero => intro w curr p; rfl
  | succ fuel ih =>
      intro w curr p
      simp only [explosion_ray_scorch]
      split_ifs with h1 h2
      · rw [ih, writeCell_cells]
        split_ifs with h3
        · rw [h3]
        · rfl
      · rw [ih]
      · rfl

/-- The scorch loop does not change the grid dimensions. -/
theorem scorch_width (start stepv : vec2) (L n : ℚ) :
    ∀ (fuel : ℕ) (w : world) (curr : vec2),
      (((explosion_ray_scorch start stepv L n fuel w curr).1)).width = w.width := by
  intro fuel
  induction fuel with
  | zero => intro w curr; rfl
  | succ fuel ih =>
      intro w curr
      simp only [explosion_ray_scorch]
      split_ifs with h1 h2
      · rw [ih, writeCell_width]
      · rw [ih]
      · rfl

theorem ray_width (w : world) (start endv : vec2) (info : explosion) (rng : ℕ → ℚ)
    (k fuel : ℕ) :
    ((explosion_ray w start endv info rng k fuel).1).width = w.width := by
  simp only [explosion_ray]
  rw [scorch_width, destruct_width]

theorem ray_titanium (w : world) (start endv : vec2) (info : explosion) (rng : ℕ → ℚ)
    (k fuel : ℕ) (p : ivec2) (hp : (w.cells p).type = pixel_type.titanium) :
    ((explosion_ray w start endv info rng k fuel).1.cells p).type = pixel_type.titanium := by
  simp only [explosion_ray]
  rw [scorch_type]
  exact destruct_titanium _ _ _ _ fuel w start (k + 1) p hp

theorem ray_blocked (w : world) (start endv : vec2) (info : explosion) (rng : ℕ → ℚ)
    (k fuel : ℕ) (yt : ℤ) (q : ivec2)
    (hrow : ∀ x : ℤ, 0 ≤ x → x < w.width → (w.cells (x, yt)).type = pixel_type.titanium)
    (hstart : qtrunc start.y < yt) (hq : yt < q.2) :
    ((explosion_ray w start endv info rng k fuel).1.cells q).type = (w.cells q).type := by
  simp only [explosion_ray]
  rw [scorch_type]
  exact destruct_blocked start _ _ rng yt
    (qdiv_step_le_one (vsub endv start).x (vsub endv start).y) fuel w start (k + 1)
    hrow hstart.le q hq

/-- One ray preserves the all-titanium row and the type of any cell below
it. -/
theorem ray_preserve (w : world) (start endv : vec2) (info : explosion) (rng : ℕ → ℚ)
    (k fuel : ℕ) (yt : ℤ) (q : ivec2)
    (hstart : qtrunc start.y < yt) (hq : yt < q.2)
    (hrow : ∀ x : ℤ, 0 ≤ x → x < w.width → (w.cells (x, yt)).type = pixel_type.titanium) :
    (∀ x : ℤ, 0 ≤ x → x < ((explosion_ray w start endv info rng k fuel).1).width →
        (((explosion_ray w start endv info rng k fuel).1).cells (x, yt)).type
          = pixel_type.titanium)
    ∧ ((explosion_ray w start endv info rng k fuel).1.cells q).type = (w.cells q).type := by
  constructor
  · intro x hx0 hxw
    rw [ray_width] at hxw
    exact ray_titanium w start endv info rng k fuel (x, yt) (hrow x hx0 hxw)
  · exact ray_blocked w start endv info rng k fuel yt q hrow hstart hq

set_option maxHeartbeats 1600000 in
theorem ray_blocked_above (w : world) (start endv : vec2) (info : explosion) (rng : ℕ → ℚ)
    (k fuel : ℕ) (yt : ℤ) (q : ivec2)
    (hrow : ∀ x : ℤ, 0 ≤ x → x < w.width → (w.cells (x, yt)).type = pixel_type.titanium)
    (hstart : yt < qtrunc start.y) (hq : q.2 < yt) :
    ((explosion_ray w start endv info rng k fuel).1.cells q).type = (w.cells q).type := by
  simp only [explosion_ray]
  rw [scorch_type]
  exact destruct_blocked_above start _ _ rng yt
    (qdiv_step_ge_neg_one (vsub endv start).x (vsub endv start).y) fuel w start (k + 1)
    hrow hstart.le q hq

/-- One ray preserves the all-titanium row and the type of any cell above
it (mirror orientation). -/
theorem ray_preserve_above (w : world) (start endv : vec2) (info : explosion) (rng : ℕ → ℚ)
    (k fuel : ℕ) (yt : ℤ) (q : ivec2)
    (hstart : yt < qtrunc start.y) (hq : q.2 < yt)
    (hrow : ∀ x : ℤ, 0 ≤ x → x < w.width → (w.cells (x, yt)).type = pixel_type.titanium) :
    (∀ x : ℤ, 0 ≤ x → x < ((explosion_ray w start endv info rng k fuel).1).width →
        (((explosion_ray w start endv info rng k fuel).1).cells (x, yt)).type
          = pixel_type.titanium)
    ∧ ((explosion_ray w start endv info rng k fuel).1.cells q).type = (w.cells q).type := by
  constructor
  · intro x hx0 hxw
    rw [ray_width] at hxw
    exact ray_titanium w start endv info rng k fuel (x, yt) (hrow x hx0 hxw)
  · exact ray_blocked_above w start endv info rng k fuel yt q hrow hstart hq

theorem ray4_width (pos : vec2) (boundary : ℚ) (info : explosion) (rng : ℕ → ℚ)
    (fuel : ℕ) (i : ℤ) (w : world) (k : ℕ) :
    ((ray4 pos boundary info rng fuel i w k).1).width = w.width := by
  simp only [ray4]
  rw [ray_width, ray_width, ray_width, ray_width]

theorem ray4_titanium (pos : vec2) (boundary : ℚ) (info : explosion) (rng : ℕ → ℚ)
    (fuel : ℕ) (i : ℤ) (w : world) (k : ℕ) (p : ivec2)
    (hp : (w.cells p).type = pixel_type.titanium) :
    ((ray4 pos boundary info rng fuel i w k).1.cells p).type = pixel_type.titanium := by
  simp only [ray4]
  exact ray_titanium _ _ _ _ _ _ _ _ (ray_titanium _ _ _ _ _ _ _ _
    (ray_titanium _ _ _ _ _ _ _ _ (ray_titanium _ _ _ _ _ _ _ _ hp)))

theorem ray4_preserve (pos : vec2) (boundary : ℚ) (info : explosion) (rng : ℕ → ℚ)
    (fuel : ℕ) (i : ℤ) (w : world) (k : ℕ) (yt : ℤ) (q : ivec2)
    (hstart : qtrunc pos.y < yt) (hq : yt < q.2)
    (hrow : ∀ x : ℤ, 0 ≤ x → x < w.width → (w.cells (x, yt)).type = pixel_type.titanium) :
    (∀ x : ℤ, 0 ≤ x → x < ((ray4 pos boundary info rng fuel i w k).1).width →
        (((ray4 pos boundary info rng fuel i w k).1).cells (x, yt)).type
          = pixel_type.titanium)
    ∧ ((ray4 pos boundary info rng fuel i w k).1.cells q).type = (w.cells q).type := by
  simp only [ray4]
  obtain ⟨hrow1, hq1⟩ := ray_preserve w pos (vadd pos ⟨mkRat i 1, boundary⟩) info rng k fuel
    yt q hstart hq hrow
  obtain ⟨hrow2, hq2⟩ := ray_preserve _ pos (vadd pos ⟨mkRat i 1, -boundary⟩) info rng _ fuel
    yt q hstart hq hrow1
  obtain ⟨hrow3, hq3⟩ := ray_preserve _ pos (vadd pos ⟨boundary, mkRat i 1⟩) info rng _ fuel
    yt q hstart hq hrow2
  obtain ⟨hrow4, hq4⟩ := ray_preserve _ pos (vadd pos ⟨-boundary, mkRat i 1⟩) info rng _ fuel
    yt q hstart hq hrow3
  exact ⟨hrow4, by rw [hq4, hq3, hq2, hq1]⟩

theorem ray4_preserve_above (pos : vec2) (boundary : ℚ) (info : explosion) (rng : ℕ → ℚ)
    (fuel : ℕ) (i : ℤ) (w : world) (k : ℕ) (yt : ℤ) (q : ivec2)
    (hstart : yt < qtrunc pos.y) (hq : q.2 < yt)
    (hrow : ∀ x : ℤ, 0 ≤ x → x < w.width → (w.cells (x, yt)).type = pixel_type.titanium) :
    (∀ x : ℤ, 0 ≤ x → x < ((ray4 pos boundary info rng fuel i w k).1).width →
        (((ray4 pos boundary info rng fuel i w k).1).cells (x, yt)).type
          = pixel_type.titanium)
    ∧ ((ray4 pos boundary info rng fuel i w k).1.cells q).type = (w.cells q).type := by
  simp only [ray4]
  obtain ⟨hrow1, hq1⟩ := ray_preserve_above w pos (vadd pos ⟨mkRat i 1, boundary⟩) info rng k fuel
    yt q hstart hq hrow
  obtain ⟨hrow2, hq2⟩ := ray_preserve_above _ pos (vadd pos ⟨mkRat i 1, -boundary⟩) info rng _ fuel
    yt q hstart hq hrow1
  obtain ⟨hrow3, hq3⟩ := ray_preserve_above _ pos (vadd pos ⟨boundary, mkRat i 1⟩) info rng _ fuel
    yt q hstart hq hrow2
  obtain ⟨hrow4, hq4⟩ := ray_preserve_above _ pos (vadd pos ⟨-boundary, mkRat i 1⟩) info rng _ fuel
    yt q hstart hq hrow3
  exact ⟨hrow4, by rw [hq4, hq3, hq2, hq1]⟩

theorem apply_list_titanium (pos : vec2) (boundary : ℚ) (info : explosion) (rng : ℕ → ℚ)
    (fuel : ℕ) :
    ∀ (idx : List ℤ) (w : world) (k : ℕ) (p : ivec2),
      (w.cells p).type = pixel_type.titanium →
      ((apply_list pos boundary info rng fuel idx w k).1.cells p).type
        = pixel_type.titanium := by
  intro idx
  induction idx with
  | nil => intro w k p hp; exact hp
  | cons i rest ihc =>
      intro w k p hp
      simp only [apply_list]
      exact ihc _ _ p (ray4_titanium pos boundary info rng fuel i w k p hp)

theorem apply_list_blocked (pos : vec2) (boundary : ℚ) (info : explosion) (rng : ℕ → ℚ)
    (fuel : ℕ) (yt : ℤ) (q : ivec2)
    (hstart : qtrunc pos.y < yt) (hq : yt < q.2) :
    ∀ (idx : List ℤ) (w : world) (k : ℕ),
      (∀ x : ℤ, 0 ≤ x → x < w.width → (w.cells (x, yt)).type = pixel_type.titanium) →
      ((apply_list pos boundary info rng fuel idx w k).1.cells q).type = (w.cells q).type := by
  intro idx
  induction idx with
  | nil => intro w k _; rfl
  | cons i rest ihc =>
      intro w k hrow
      simp only [apply_list]
      obtain ⟨hrow1, hq1⟩ := ray4_preserve pos boundary info rng fuel i w k yt q hstart hq hrow
      rw [ihc _ _ hrow1, hq1]

theorem apply_list_blocked_above (pos : vec2) (boundary : ℚ) (info : explosion) (rng : ℕ → ℚ)
    (fuel : ℕ) (yt : ℤ) (q : ivec2)
    (hstart : yt < qtrunc pos.y) (hq : q.2 < yt) :
    ∀ (idx : List ℤ) (w : world) (k : ℕ),
      (∀ x : ℤ, 0 ≤ x → x < w.width → (w.cells (x, yt)).type = pixel_type.titanium) →
      ((apply_list pos boundary info rng fuel idx w k).1.cells q).type = (w.cells q).type := by
  intro idx
  induction idx with
  | nil => intro w k _; rfl
  | cons i rest ihc =>
      intro w k hrow
      simp only [apply_list]
      obtain ⟨hrow1, hq1⟩ := ray4_preserve_above pos boundary info rng fuel i w k yt q
        hstart hq hrow
      rw [ihc _ _ hrow1, hq1]

/-- C2 (amended): (i) `apply_explosion` never changes the type of any
titanium cell; (ii) each ray's destruction loop stops at the first
titanium cell it reaches, modifying nothing from that point on; (iii) a
cell `q` separated from the centre by a full-width horizontal line of
titanium — the centre above the line and `q` below it, or `q` above and
the centre below — never has its TYPE changed by `apply_explosion`; its
colour, however, can still be darkened by the scorch phase, so "left
untouched" as stated is amended to "type unchanged" (see the
counterexample). -/
theorem C2_titanium_invariants :
    (∀ (w : world) (pos : vec2) (info : explosion) (rng : ℕ → ℚ) (k fuel : ℕ) (p : ivec2),
        (w.cells p).type = pixel_type.titanium →
        (((apply_explosion w pos info rng k fuel).1).cells p).type = pixel_type.titanium)
  ∧ (∀ (start stepv : vec2) (blast2 : ℚ) (rng : ℕ → ℚ) (fuel : ℕ) (w : world)
        (curr : vec2) (k : ℕ),
        (w.cells (vtrunc curr)).type = pixel_type.titanium →
        explosion_ray_destruct start stepv blast2 rng fuel w curr k = (w, curr, k))
  ∧ (∀ (w : world) (pos : vec2) (info : explosion) (rng : ℕ → ℚ) (k fuel : ℕ)
        (yt : ℤ) (q : ivec2),
        (qtrunc pos.y < yt ∧ yt < q.2) ∨ (q.2 < yt ∧ yt < qtrunc pos.y) →
        (∀ x : ℤ, 0 ≤ x → x < w.width → (w.cells (x, yt)).type = pixel_type.titanium) →
        (((apply_explosion w pos info rng k fuel).1).cells q).type = (w.cells q).type) := by
  refine ⟨?_, ?_, ?_⟩
  · intro w pos info rng k fuel p hp
    exact apply_list_titanium pos _ info rng fuel _ w k p hp
  · intro start stepv blast2 rng fuel w curr k h
    exact destruct_stops start stepv blast2 rng fuel w curr k h
  · intro w pos info rng k fuel yt q hsep hrow
    rcases hsep with ⟨hstart, hq⟩ | ⟨hq, hstart⟩
    · exact apply_list_blocked pos _ info rng fuel yt q hstart hq _ w k hrow
    · exact apply_list_blocked_above pos _ info rng fuel yt q hstart hq _ w k hrow

/-- Witness for C2 on the concrete world `w_c2` (titanium row at `y = 1`,
rock at `(0,2)`): both orientations of conjunct (iii) are exercised, with
the centre at `(0,0)` below the line and at `(0,2)` above it. -/
theorem C2_titanium_invariants_witness :
    ((((apply_explosion w_c2 ⟨0, 0⟩ info_c2 rng_c2 0 8).1).cells ((0 : ℤ), (1 : ℤ))).type
        = pixel_type.titanium)
  ∧ (explosion_ray_destruct ⟨0, 0⟩ ⟨0, 1⟩ 1 rng_c2 8 w_c2 ⟨0, 1⟩ 0 = (w_c2, ⟨0, 1⟩, 0))
  ∧ ((((apply_explosion w_c2 ⟨0, 0⟩ info_c2 rng_c2 0 8).1).cells ((0 : ℤ), (2 : ℤ))).type
        = (w_c2.cells ((0 : ℤ), (2 : ℤ))).type)
  ∧ ((((apply_explosion w_c2 ⟨0, 2⟩ info_c2 rng_c2 0 8).1).cells ((0 : ℤ), (0 : ℤ))).type
        = (w_c2.cells ((0 : ℤ), (0 : ℤ))).type) :=
  ⟨C2_titanium_invariants.1 w_c2 ⟨0, 0⟩ info_c2 rng_c2 0 8 ((0 : ℤ), (1 : ℤ)) (by decide),
   C2_titanium_invariants.2.1 ⟨0, 0⟩ ⟨0, 1⟩ 1 rng_c2 8 w_c2 ⟨0, 1⟩ 0 (by decide),
   C2_titanium_invariants.2.2 w_c2 ⟨0, 0⟩ info_c2 rng_c2 0 8 1 ((0 : ℤ), (2 : ℤ))
     (Or.inl ⟨by decide, by decide⟩)
     (by
       intro x h1 h2
       have hw : w_c2.width = 1 := rfl
       rw [hw] at h2
       have hx : x = 0 := by omega
       subst hx
       decide),
   C2_titanium_invariants.2.2 w_c2 ⟨0, 2⟩ info_c2 rng_c2 0 8 1 ((0 : ℤ), (0 : ℤ))
     (Or.inr ⟨by decide, by decide⟩)
     (by
       intro x h1 h2
       have hw : w_c2.width = 1 := rfl
       rw [hw] at h2
       have hx : x = 0 := by omega
       subst hx
       decide)⟩

set_option maxRecDepth 100000 in
/-- Counterexample to C2 as stated: in `w_c2` the cell `(0,2)` is separated
from the centre `(0,0)` by the full-width titanium row `y = 1`, yet
`apply_explosion` changes it (the scorch phase walks past the titanium and
darkens the rock's colour), so `q` is not "left untouched". -/
theorem C2_scorch_beyond_titanium_cex :
    qtrunc ((0 : ℚ)) < 1
  ∧ (∀ x : ℤ, 0 ≤ x → x < w_c2.width → (w_c2.cells (x, 1)).type = pixel_type.titanium)
  ∧ ((1 : ℤ) < 2)
  ∧ ((apply_explosion w_c2 ⟨0, 0⟩ info_c2 rng_c2 0 8).1.cells ((0 : ℤ), (2 : ℤ)))
      ≠ w_c2.cells ((0 : ℤ), (2 : ℤ)) := by
  refine ⟨by decide, ?_, by decide, by decide⟩
  intro x h1 h2
  have hw : w_c2.width = 1 := rfl
  rw [hw] at h2
  have hx : x = 0 := by omega
  subst hx
  decide

/-! ## C6: serialisation round trip -/

theorem word_bytes_length : ∀ (c v : ℕ), (word_bytes c v).length = c := by
  intro c
  induction c with
  | zero => intro v; rfl
  | succ c ih =>
      intro v
      simp [word_bytes, ih]

theorem read_word_roundtrip : ∀ (c v : ℕ) (rest : List ℕ), v < 256 ^ c →
    read_word c (word_bytes c v ++ rest) = some (v, rest) := by
  intro c
  induction c with
  | zero =>
      intro v rest hv
      have hz : v = 0 := by
        have h1 : (256 : ℕ) ^ 0 = 1 := pow_zero 256
        omega
      subst hz
      rfl
  | succ c ih =>
      intro v rest hv
      have hv2 : v / 256 < 256 ^ c := by
        rw [Nat.div_lt_iff_lt_mul (by norm_num)]
        calc v < 256 ^ (c + 1) := hv
          _ = 256 ^ c * 256 := by rw [pow_succ]
      simp only [word_bytes, List.cons_append, read_word, List.append_eq]
      rw [ih (v / 256) rest hv2]
      have hrec : v % 256 + 256 * (v / 256) = v := by omega
      show some (v % 256 + 256 * (v / 256), rest) = some (v, rest)
      rw [hrec]

theorem deserialise_pixel_roundtrip (p : spixel) (rest : List ℕ) :
    deserialise_pixel (serialise_pixel p ++ rest) = some (p, rest) := by
  obtain ⟨t, cr, cg, cb, ca, vx, vy, fl⟩ := p
  have h32 : ∀ m : Fin (2 ^ 32), m.val < 256 ^ 4 := by
    intro m
    have := m.isLt
    norm_num at this ⊢
    omega
  have h64 : ∀ m : Fin (2 ^ 64), m.val < 256 ^ 8 := by
    intro m
    have := m.isLt
    norm_num at this ⊢
    omega
  simp only [serialise_pixel, deserialise_pixel, List.cons_append, List.append_assoc]
  rw [read_word_roundtrip 4 cr.val _ (h32 cr)]
  simp only [Option.some_bind]
  rw [read_word_roundtrip 4 cg.val _ (h32 cg)]
  simp only [Option.some_bind]
  rw [read_word_roundtrip 4 cb.val _ (h32 cb)]
  simp only [Option.some_bind]
  rw [read_word_roundtrip 4 ca.val _ (h32 ca)]
  simp only [Option.some_bind]
  rw [read_word_roundtrip 4 vx.val _ (h32 vx)]
  simp only [Option.some_bind]
  rw [read_word_roundtrip 4 vy.val _ (h32 vy)]
  simp only [Option.some_bind]
  rw [read_word_roundtrip 8 fl.val _ (h64 fl)]
  simp only [Option.some_bind]
  simp only [Option.some.injEq, Prod.mk.injEq]
  refine ⟨?_, trivial⟩
  have ht : t.val % 256 = t.val := Nat.mod_eq_of_lt t.isLt
  have hcr : cr.val % 2 ^ 32 = cr.val := Nat.mod_eq_of_lt cr.isLt
  have hcg : cg.val % 2 ^ 32 = cg.val := Nat.mod_eq_of_lt cg.isLt
  have hcb : cb.val % 2 ^ 32 = cb.val := Nat.mod_eq_of_lt cb.isLt
  have hca : ca.val % 2 ^ 32 = ca.val := Nat.mod_eq_of_lt ca.isLt
  have hvx : vx.val % 2 ^ 32 = vx.val := Nat.mod_eq_of_lt vx.isLt
  have hvy : vy.val % 2 ^ 32 = vy.val := Nat.mod_eq_of_lt vy.isLt
  have hfl : fl.val % 2 ^ 64 = fl.val := Nat.mod_eq_of_lt fl.isLt
  simp [spixel.mk.injEq, Fin.ext_iff, ht, hcr, hcg, hcb, hca, hvx, hvy, hfl]

theorem serialise_length : ∀ cells : List spixel,
    (serialise cells).length = 33 * cells.length := by
  intro cells
  induction cells with
  | nil => rfl
  | cons p rest ih =>
      simp only [serialise, List.length_append, ih, serialise_pixel, List.length_cons,
        word_bytes_length, List.length_append]
      ring

theorem deserialise_go_roundtrip : ∀ (cells : List spixel) (fuel : ℕ),
    cells.length ≤ fuel → deserialise_go fuel (serialise cells) = some cells := by
  intro cells
  induction cells with
  | nil =>
      intro fuel _
      cases fuel <;> rfl
  | cons p rest ihc =>
      intro fuel hlen
      cases fuel with
      | zero => simp at hlen
      | succ fuel =>
          have harm : deserialise_go (fuel + 1) (serialise (p :: rest))
              = (match deserialise_pixel (serialise_pixel p ++ serialise rest) with
                 | Option.none => Option.none
                 | some (q, rest2) =>
                     match deserialise_go fuel rest2 with
                     | Option.none => Option.none
                     | some ps => some (q :: ps)) := by
            have hcons : serialise (p :: rest) = serialise_pixel p ++ serialise rest := rfl
            rw [hcons]
            rfl
          rw [harm, deserialise_pixel_roundtrip p (serialise rest)]
          have hlen2 : rest.length ≤ fuel := by
            simp only [List.length_cons] at hlen
            omega
          show (match deserialise_go fuel (serialise rest) with
                | Option.none => Option.none
                | some ps => some (p :: ps)) = some (p :: rest)
          rw [ihc fuel hlen2]

/-- C6: deserialising the output of `serialise` yields exactly the original
cell array, cell for cell (type, colour, velocity and flag bit patterns all
equal at every position). -/
theorem C6_serialise_roundtrip (cells : List spixel) :
    deserialise (serialise cells) = some cells := by
  rw [deserialise]
  apply deserialise_go_roundtrip
  rw [serialise_length]
  omega
